import Mathlib

/-! boost.fiber: worker fibers, fiber-local storage and the fiber manager

A shallow embedding of `src/src/detail/worker_fiber.cpp`, `src/src/fiber_manager.cpp`,
`src/src/algo/random_chase_lev.cpp` and of the worker trampoline, the reference count,
the class `id` and the control-block placement of `src/include/boost/fiber/context.hpp`.

Pointers are natural numbers (`0` is the null pointer); the fiber objects live in a
heap `Nat → worker_fiber`.  Calls that leave the translated files (a cleanup function,
`scheduler::move_to_run`, `resume()` of an execution context) are recorded in a log.
`BOOST_ASSERT` is compiled out in release builds: the functions below are the
release behaviour, and an assertion that a statement is about is evaluated on the
state the function leaves (`set_ready_assert`, `is_terminated`, `is_ready`).
-/

namespace Fiber

/-! ## Data model -/

/-- The four states of a fiber (`READY`, `RUNNING`, `WAITING` are named in
`worker_fiber::set_ready`, `TERMINATED` is what `is_terminated()` tests). -/
inductive state_t where
  | READY
  | RUNNING
  | WAITING
  | TERMINATED
deriving DecidableEq, Repr

/-- The constant `flag_interruption_blocked` of `context::flag_t`. -/
def flag_interruption_blocked : Nat := 1 <<< 5

/-- The constant `flag_interruption_requested` of `context::flag_t`. -/
def flag_interruption_requested : Nat := 1 <<< 6

/-- The operator `~` on an `int`, as a 32-bit pattern. -/
def bit_not (x : Nat) : Nat := 2 ^ 32 - 1 - x % 2 ^ 32

/-- The struct `fss_data`: a data pointer and the identity of its cleanup function. -/
structure fss_data where
  vp : Nat
  cleanup_function : Nat
deriving DecidableEq, Repr

/-- The type `std::map< uintptr_t, fss_data >`, as the list of its entries in key order. -/
abbrev fss_data_t := List (Nat × fss_data)

/-- The member `std::map::find`. -/
def fss_find (key : Nat) : fss_data_t → Option fss_data
  | [] => none
  | (k, d) :: rest => if k = key then some d else fss_find key rest

/-- The member `std::map::insert` (with or without a hint): a map that already holds
the key is left as it is, otherwise the pair is placed at its position in key order. -/
def fss_insert (key : Nat) (d : fss_data) : fss_data_t → fss_data_t
  | [] => [(key, d)]
  | (k, e) :: rest =>
    if k = key then (k, e) :: rest
    else if key < k then (key, d) :: (k, e) :: rest
    else (k, e) :: fss_insert key d rest

/-- The member `std::map::erase` at the iterator that `find` returned for the key. -/
def fss_erase (key : Nat) : fss_data_t → fss_data_t
  | [] => []
  | (k, e) :: rest => if k = key then rest else (k, e) :: fss_erase key rest

/-- A call that leaves the translated code. -/
inductive event where
  /-- The call `scheduler::instance()->move_to_run( p)`. -/
  | move_to_run (p : Nat)
  /-- The call `( * cleanup_function)( vp)`. -/
  | cleanup (fn : Nat) (vp : Nat)
  /-- The call `p->resume()`. -/
  | resume (p : Nat)
deriving DecidableEq, Repr

/-- The largest `steady_clock::time_point`. -/
def time_point_max : Nat := 2 ^ 63 - 1

/-- The data members of `worker_fiber` that the translated functions touch. -/
structure worker_fiber where
  use_count_ : Nat := 1
  fss_data_ : fss_data_t := []
  tp_ : Nat := time_point_max
  state_ : state_t := state_t.READY
  flags_ : Nat := 0
  priority_ : Int := 0
  waiting_ : List Nat := []
deriving Repr

/-- The scheduler of one thread: the data members of `fiber_manager`, the heap of
fiber objects, the steady clock and the log of outgoing calls. -/
structure fiber_manager where
  fibers : Nat → worker_fiber
  rqueue : List Nat := []
  active_fiber_ : Nat
  wqueue_ : List Nat := []
  tqueue_ : List Nat := []
  wait_interval_ : Nat := 10000000
  now : Nat := 0
  log : List event := []

/-- Replace the object at address `p` by `g` of it. -/
def update_fiber (p : Nat) (g : worker_fiber → worker_fiber) (m : fiber_manager) :
    fiber_manager :=
  { m with fibers := Function.update m.fibers p (g (m.fibers p)) }

/-- Append an outgoing call to the log. -/
def emit (e : event) (m : fiber_manager) : fiber_manager :=
  { m with log := m.log ++ [e] }

/-! ## worker_fiber -/

namespace worker_fiber

/-- Modelled from the spec: `is_terminated()` is declared in worker_fiber.hpp, which is
not in src; the fiber is terminated when its state is `terminated`. -/
def is_terminated (f : worker_fiber) : Bool := f.state_ = state_t.TERMINATED

/-- Modelled from the spec: `is_ready()` (worker_fiber.hpp is not in src). -/
def is_ready (f : worker_fiber) : Bool := f.state_ = state_t.READY

/-- Modelled from the spec: `is_running()` (worker_fiber.hpp is not in src). -/
def is_running (f : worker_fiber) : Bool := f.state_ = state_t.RUNNING

/-- The getter `interruption_blocked()`, as in context.hpp. -/
def interruption_blocked_get (f : worker_fiber) : Bool :=
  f.flags_ &&& flag_interruption_blocked ≠ 0

/-- The getter `interruption_requested()`, as in context.hpp. -/
def interruption_requested (f : worker_fiber) : Bool :=
  f.flags_ &&& flag_interruption_requested ≠ 0

/-- The method `fss_data::do_cleanup`. -/
def do_cleanup (d : fss_data) (m : fiber_manager) : fiber_manager :=
  emit (event.cleanup d.cleanup_function d.vp) m

/-- The assertion of `set_ready` on the state it replaces. -/
def set_ready_assert (previous : state_t) : Bool :=
  previous = state_t.WAITING || previous = state_t.RUNNING || previous = state_t.READY

/-- The method `worker_fiber::set_ready`. -/
def set_ready (this : Nat) (m : fiber_manager) : fiber_manager :=
  emit (event.move_to_run this)
    (update_fiber this (fun f => { f with state_ := state_t.READY }) m)

/-- Modelled from the spec: `set_waiting()` (worker_fiber.hpp is not in src): the
transition `running --(wait_until / join)--> waiting`. -/
def set_waiting (this : Nat) (m : fiber_manager) : fiber_manager :=
  update_fiber this (fun f => { f with state_ := state_t.WAITING }) m

/-- Modelled from the spec: `set_running()` (worker_fiber.hpp is not in src): the
transition `ready --(scheduler picks & resumes)--> running`. -/
def set_running (this : Nat) (m : fiber_manager) : fiber_manager :=
  update_fiber this (fun f => { f with state_ := state_t.RUNNING }) m

/-- Modelled from the spec: `set_terminated()` (worker_fiber.hpp is not in src): the
transition `running --(entry returns / interrupted / forced_unwind)--> terminated`. -/
def set_terminated (this : Nat) (m : fiber_manager) : fiber_manager :=
  update_fiber this (fun f => { f with state_ := state_t.TERMINATED }) m

/-- Modelled from the spec: the setter `time_point( tp)` (worker_fiber.hpp is not in
src) records the wake time. -/
def time_point (this : Nat) (tp : Nat) (m : fiber_manager) : fiber_manager :=
  update_fiber this (fun f => { f with tp_ := tp }) m

/-- The method `worker_fiber::release`: swap the wait list out, make every waiter
ready, then clean up every entry of the FLS map. -/
def release (this : Nat) (m : fiber_manager) : fiber_manager :=
  let waiting := (m.fibers this).waiting_
  let m1 := update_fiber this (fun f => { f with waiting_ := [] }) m
  let m2 := waiting.foldl (fun s p => set_ready p s) m1
  (m2.fibers this).fss_data_.foldl (fun s data => do_cleanup data.2 s) m2

/-- The method `worker_fiber::join`. -/
def join (this : Nat) (p : Nat) (m : fiber_manager) : Bool × fiber_manager :=
  if is_terminated (m.fibers this) then (false, m)
  else (true, update_fiber this (fun f => { f with waiting_ := f.waiting_ ++ [p] }) m)

/-- The setter `worker_fiber::interruption_blocked( bool)`. -/
def interruption_blocked (this : Nat) (blck : Bool) (m : fiber_manager) : fiber_manager :=
  if blck then
    update_fiber this (fun f => { f with flags_ := f.flags_ ||| flag_interruption_blocked }) m
  else
    update_fiber this
      (fun f => { f with flags_ := f.flags_ &&& bit_not flag_interruption_blocked }) m

/-- The method `worker_fiber::request_interruption`. -/
def request_interruption (this : Nat) (req : Bool) (m : fiber_manager) : fiber_manager :=
  if req then
    set_ready this
      (update_fiber this
        (fun f => { f with flags_ := f.flags_ ||| flag_interruption_requested }) m)
  else
    update_fiber this
      (fun f => { f with flags_ := f.flags_ &&& bit_not flag_interruption_requested }) m

/-- The method `worker_fiber::thread_affinity`; the constant `flag_thread_affinity` is
declared in worker_fiber.hpp, which is not in src, and is a parameter here. -/
def thread_affinity (flag_thread_affinity : Nat) (this : Nat) (req : Bool)
    (m : fiber_manager) : fiber_manager :=
  if req then
    update_fiber this (fun f => { f with flags_ := f.flags_ ||| flag_thread_affinity }) m
  else
    update_fiber this
      (fun f => { f with flags_ := f.flags_ &&& bit_not flag_thread_affinity }) m

/-- The method `worker_fiber::get_fss_data`. -/
def get_fss_data (this : Nat) (vp : Nat) (m : fiber_manager) : Nat :=
  match fss_find vp (m.fibers this).fss_data_ with
  | some d => d.vp
  | none => 0

/-- The method `worker_fiber::set_fss_data`. -/
def set_fss_data (this : Nat) (vp : Nat) (cleanup_fn : Nat) (data : Nat)
    (cleanup_existing : Bool) (m : fiber_manager) : fiber_manager :=
  match fss_find vp (m.fibers this).fss_data_ with
  | some d =>
    let m1 := if cleanup_existing then do_cleanup d m else m
    if data ≠ 0 then
      update_fiber this
        (fun f => { f with fss_data_ := fss_insert vp ⟨data, cleanup_fn⟩ f.fss_data_ }) m1
    else
      update_fiber this (fun f => { f with fss_data_ := fss_erase vp f.fss_data_ }) m1
  | none =>
    update_fiber this
      (fun f => { f with fss_data_ := fss_insert vp ⟨data, cleanup_fn⟩ f.fss_data_ }) m

end worker_fiber

/-! ## fiber_manager -/

/-- What a fiber can throw out of a library call or out of its entry function. -/
inductive exn where
  | fiber_interrupted
  | forced_unwind
  | other (tag : Nat)
deriving DecidableEq, Repr

/-- What the fibers that run while the caller is suspended do to the shared state:
the calls of the worker_fiber interface, the end of a fiber's entry function (it is
marked terminated and released) and the passing of time. -/
inductive action where
  | set_ready (p : Nat)
  | request_interruption (p : Nat) (req : Bool)
  | interruption_blocked (p : Nat) (blck : Bool)
  | join (p : Nat) (q : Nat)
  | release (p : Nat)
  | set_fss_data (p : Nat) (vp : Nat) (cleanup_fn : Nat) (data : Nat) (cleanup_existing : Bool)
  | finish (p : Nat)
  | elapse (d : Nat)
deriving DecidableEq, Repr

/-- The effect of one action. -/
def action.apply : action → fiber_manager → fiber_manager
  | action.set_ready p, m => worker_fiber.set_ready p m
  | action.request_interruption p req, m => worker_fiber.request_interruption p req m
  | action.interruption_blocked p blck, m => worker_fiber.interruption_blocked p blck m
  | action.join p q, m => (worker_fiber.join p q m).2
  | action.release p, m => worker_fiber.release p m
  | action.set_fss_data p vp fn data ce, m => worker_fiber.set_fss_data p vp fn data ce m
  | action.finish p, m => worker_fiber.release p (worker_fiber.set_terminated p m)
  | action.elapse d, m => { m with now := m.now + d }

namespace fiber_manager

/-- Modelled from the spec: `waiting_queue::push` (waiting_queue.hpp is not in src)
links the fiber into the wait queue. -/
def wqueue_push (p : Nat) (m : fiber_manager) : fiber_manager :=
  { m with wqueue_ := m.wqueue_ ++ [p] }

/-- Modelled from the spec: `waiting_queue::move_to` (waiting_queue.hpp is not in src):
every fiber of the wait queue that is ready, or whose wake time has passed, is marked
ready and moved into the ready queue of the scheduling policy (a FIFO). -/
def wqueue_move_to (m : fiber_manager) : fiber_manager :=
  m.wqueue_.foldl
    (fun s p =>
      if (s.fibers p).is_ready || decide ((s.fibers p).tp_ ≤ s.now) then
        { update_fiber p (fun f => { f with state_ := state_t.READY }) s with
          wqueue_ := s.wqueue_.erase p
          rqueue := s.rqueue ++ [p] }
      else s)
    m

/-- The method `fiber_manager::resume_`. -/
def resume_ (f : Nat) (m : fiber_manager) : fiber_manager :=
  let m1 := worker_fiber.set_running f m
  if f = m1.active_fiber_ then m1
  else
    let previous := m1.active_fiber_
    let m2 := { m1 with active_fiber_ := f }
    let m3 :=
      if (m2.fibers previous).is_terminated then
        { m2 with tqueue_ := m2.tqueue_ ++ [previous] }
      else m2
    emit (event.resume f) m3

/-- The method `fiber_manager::run`, seen from the fiber that calls it.  The call
switches to other fibers; `others` is what they do to the shared state until a pass
of the loop picks the caller again.  That pass moves the ready fibers of the wait
queue to the ready queue, can pick the caller only from the ready queue, clears the
terminated queue, resumes the caller and clears the terminated queue once more.  The
result is `none` when the caller is not in the ready queue after `others`: the call
has not returned. -/
def run (others : List action) (m : fiber_manager) : Option fiber_manager :=
  let self := m.active_fiber_
  let m1 := wqueue_move_to (others.foldl (fun s a => a.apply s) m)
  if self ∈ m1.rqueue then
    let m2 := resume_ self { m1 with rqueue := m1.rqueue.erase self, tqueue_ := [] }
    some { m2 with tqueue_ := [] }
  else none

/-- Modelled from the spec: `this_fiber::interruption_point` (interruption.cpp is not
in src): the interruption is raised when the fiber reaches the point with
`interruption_requested` set and `interruption_blocked` clear. -/
def interruption_point (m : fiber_manager) : Except exn Unit :=
  let f := m.fibers m.active_fiber_
  if f.interruption_requested && !f.interruption_blocked_get then
    Except.error exn.fiber_interrupted
  else Except.ok ()

/-- The method `fiber_manager::wait_until_`; the spinlock is not modelled. -/
def wait_until_ (others : List action) (timeout_time : Nat) (m : fiber_manager) :
    Option (fiber_manager × Except exn Bool) :=
  let m1 := worker_fiber.set_waiting m.active_fiber_ m
  let m2 := worker_fiber.time_point m1.active_fiber_ timeout_time m1
  let m3 := wqueue_push m2.active_fiber_ m2
  match run others m3 with
  | none => none
  | some m4 =>
    match interruption_point m4 with
    | Except.error e => some (m4, Except.error e)
    | Except.ok _ => some (m4, Except.ok (decide (m4.now < timeout_time)))

/-- The method `fiber_manager::yield`. -/
def yield (others : List action) (m : fiber_manager) :
    Option (fiber_manager × Except exn Unit) :=
  let m1 := worker_fiber.set_ready m.active_fiber_ m
  let m2 := wqueue_push m1.active_fiber_ m1
  match run others m2 with
  | none => none
  | some m3 => some (m3, Except.ok ())

/-- The method `fiber_manager::join`.  Its last statement is the assertion
`f->is_terminated()`, to be read off the state it returns. -/
def join (others : List action) (f : Nat) (m : fiber_manager) :
    Option (fiber_manager × Except exn Unit) :=
  let m1 := worker_fiber.set_waiting m.active_fiber_ m
  let m2 := wqueue_push m1.active_fiber_ m1
  let r := worker_fiber.join f m2.active_fiber_ m2
  let m3 := if !r.1 then worker_fiber.set_ready r.2.active_fiber_ r.2 else r.2
  match run others m3 with
  | none => none
  | some m4 =>
    match interruption_point m4 with
    | Except.error e => some (m4, Except.error e)
    | Except.ok _ => some (m4, Except.ok ())

end fiber_manager

/-! ## The worker trampoline of context.hpp -/

/-- The calls the entry lambda of a worker context makes. -/
inductive step where
  | invoke
  | set_terminated_
  | release
  | suspend
  | terminate
deriving DecidableEq, Repr

/-- The try block of the entry lambda: after the first resume the user function is
invoked unless unwinding was requested; `fn` is what the invocation does. -/
def entry_try (unwinding_requested : Bool) (fn : Except exn Unit) :
    List step × Except exn Unit :=
  if !unwinding_requested then ([step.invoke], fn) else ([], Except.ok ())

/-- The entry lambda of `context::context( worker_context_t, ...)`: the two
exceptions of the library are swallowed, any other one ends in `std::terminate()`,
which does not return; otherwise the fiber is marked terminated, released and
suspended. -/
def entry (unwinding_requested : Bool) (fn : Except exn Unit) : List step :=
  let r := entry_try unwinding_requested fn
  match r.2 with
  | Except.error (exn.other _) => r.1 ++ [step.terminate]
  | Except.error exn.fiber_interrupted =>
    r.1 ++ [step.set_terminated_, step.release, step.suspend]
  | Except.error exn.forced_unwind =>
    r.1 ++ [step.set_terminated_, step.release, step.suspend]
  | Except.ok _ => r.1 ++ [step.set_terminated_, step.release, step.suspend]

/-! ## Reading the result of a blocking call -/

/-- What a blocking call returned or threw, when it came back to its caller. -/
def outcome {α : Type} (o : Option (fiber_manager × Except exn α)) : Option (Except exn α) :=
  o.map Prod.snd

/-- The steady clock at the moment the caller was resumed. -/
def resumed_now {α : Type} (o : Option (fiber_manager × Except exn α)) : Option Nat :=
  o.map (fun r => r.1.now)

/-- The flags `interruption_requested` and `interruption_blocked` of the caller at the
moment it was resumed. -/
def resumed_flags {α : Type} (o : Option (fiber_manager × Except exn α)) :
    Option (Bool × Bool) :=
  o.map (fun r =>
    ((r.1.fibers r.1.active_fiber_).interruption_requested,
     (r.1.fibers r.1.active_fiber_).interruption_blocked_get))

/-- The state of the fiber at `p` at the moment the caller was resumed. -/
def resumed_state {α : Type} (p : Nat) (o : Option (fiber_manager × Except exn α)) :
    Option state_t :=
  o.map (fun r => (r.1.fibers p).state_)

/-! ## Concrete states used below -/

/-- A heap with a running fiber at 1 (interruption blocked when `blocked`) and
freshly constructed, ready fibers at every other address. -/
def heap0 (blocked : Bool) : Nat → worker_fiber :=
  fun p =>
    if p = 1 then
      { state_ := state_t.RUNNING, flags_ := if blocked then flag_interruption_blocked else 0 }
    else { }

/-- A scheduler whose active fiber is the fiber at 1 of `heap0`. -/
def manager0 (blocked : Bool) : fiber_manager :=
  { fibers := heap0 blocked, active_fiber_ := 1 }

/-- A scheduler whose fibers all hold the FLS entry `7 ↦ (100, cleanup 1)`. -/
def manager_fss : fiber_manager :=
  { fibers := fun _ => { fss_data_ := [(7, ⟨100, 1⟩)] }, active_fiber_ := 1 }

/-- A scheduler with a terminated fiber at 2; the fiber at 1 is running. -/
def manager_terminated : fiber_manager :=
  { fibers := fun p =>
      if p = 1 then { state_ := state_t.RUNNING }
      else if p = 2 then { state_ := state_t.TERMINATED, waiting_ := [3, 4],
                           fss_data_ := [(7, ⟨100, 1⟩), (9, ⟨200, 2⟩)] }
      else { state_ := state_t.WAITING },
    active_fiber_ := 1 }

/-! ## context.hpp: reference count, id and control-block placement -/

/-- The constant `flag_worker_context` of `context::flag_t`. -/
def flag_worker_context : Nat := 1 <<< 3

/-- The number of values of `std::size_t` and of `uintptr_t`. -/
def size_t_range : Nat := 2 ^ 64

/-- The data members of `context` that the translated functions touch; `pinned` is
what `is_context( type::pinned_context)` answers, `destructor_runs` counts the calls
of `~context()`. -/
structure context where
  use_count_ : Nat := 1
  flags_ : Nat := flag_worker_context
  scheduler_ : Option Nat := none
  pinned : Bool := false
  destructor_runs : Nat := 0
deriving DecidableEq, Repr

namespace context

/-- The member initialisers of `context::context( worker_context_t, ...)`. -/
def worker : context :=
  { use_count_ := 1, flags_ := flag_worker_context, scheduler_ := none }

/-- The friend `intrusive_ptr_add_ref`: `++ctx->use_count_` on a `std::size_t`. -/
def intrusive_ptr_add_ref (ctx : context) : context :=
  { ctx with use_count_ := (ctx.use_count_ + 1) % size_t_range }

/-- The friend `intrusive_ptr_release`: `--ctx->use_count_` on a `std::size_t`, and the
destructor when the new count is 0. -/
def intrusive_ptr_release (ctx : context) : context :=
  let c := (ctx.use_count_ + size_t_range - 1) % size_t_range
  if c = 0 then { ctx with use_count_ := c, destructor_runs := ctx.destructor_runs + 1 }
  else { ctx with use_count_ := c }

/-- A call on the reference count. -/
inductive ref_call where
  | add_ref
  | release
deriving DecidableEq, Repr

/-- The effect of one call on the reference count. -/
def ref_call.apply : ref_call → context → context
  | ref_call.add_ref, ctx => intrusive_ptr_add_ref ctx
  | ref_call.release, ctx => intrusive_ptr_release ctx

/-- Run a sequence of calls on a live context; the object is gone once its destructor
has run, so the sequence stops there.  The result is the position of the call that
ran the destructor, if one did. -/
def destroyed_at : List ref_call → context → Option Nat
  | [], _ => none
  | c :: rest, ctx =>
    if (c.apply ctx).destructor_runs = ctx.destructor_runs then
      (destroyed_at rest (c.apply ctx)).map (fun i => i + 1)
    else some 0

/-- In the words of the spec: how far the releases exceed the add_refs in a sequence
of calls. -/
def excess : List ref_call → Int
  | [] => 0
  | ref_call.add_ref :: rest => excess rest - 1
  | ref_call.release :: rest => excess rest + 1

/-- The class `context::id`: the address of a control block, null by default. -/
structure id where
  impl_ : Nat := 0
deriving DecidableEq, Repr

namespace id

/-- The operator `==` of `context::id`. -/
def operator_eq (a other : id) : Bool := a.impl_ = other.impl_

/-- The operator `!=` of `context::id`. -/
def operator_ne (a other : id) : Bool := a.impl_ ≠ other.impl_

/-- The operator `<` of `context::id`. -/
def operator_lt (a other : id) : Bool := a.impl_ < other.impl_

/-- The operator `>` of `context::id`. -/
def operator_gt (a other : id) : Bool := other.impl_ < a.impl_

/-- The operator `<=` of `context::id`. -/
def operator_le (a other : id) : Bool := !(operator_gt a other)

/-- The operator `>=` of `context::id`. -/
def operator_ge (a other : id) : Bool := !(operator_lt a other)

/-- The conversion `explicit operator bool` of `context::id`. -/
def operator_bool (a : id) : Bool := 0 ≠ a.impl_

/-- The operator `!` of `context::id`. -/
def operator_not (a : id) : Bool := 0 = a.impl_

end id

end context

/-- The function `std::align` of the standard library: the first address at or above
`ptr` that is a multiple of `alignment`, when `size` bytes still fit into `space`
from there (the new pointer and the space left); null otherwise. -/
def std_align (alignment size ptr space : Nat) : Option (Nat × Nat) :=
  if space < size then none
  else
    let aligned := (ptr + alignment - 1) / alignment * alignment
    let diff := aligned - ptr
    if diff > space - size then none else some (aligned, space - diff)

/-- The `std::align` branch shared by `make_worker_context` and
`make_dispatcher_context`: from the top `sctx_sp` and the size `sctx_size` of the
allocated stack and from `sizeof( context)` to the address of the control block and
the size handed to `preallocated`; `none` when `std::align` returns null.  Addresses
are natural numbers, the size is computed as a `std::size_t`. -/
def place_control_block (func_size sctx_sp sctx_size : Nat) : Option (Nat × Nat) :=
  let func_alignment := 64
  let sp0 := sctx_sp - func_size - func_alignment
  let space := func_size + func_alignment
  match std_align func_alignment func_size sp0 space with
  | none => none
  | some (sp, _) =>
    some (sp, (sctx_size + size_t_range - (sctx_sp - sp) % size_t_range) % size_t_range)

/-- The placement computed by `make_worker_context`. -/
def make_worker_context (func_size sctx_sp sctx_size : Nat) : Option (Nat × Nat) :=
  place_control_block func_size sctx_sp sctx_size

/-- The placement computed by `make_dispatcher_context`. -/
def make_dispatcher_context (func_size sctx_sp sctx_size : Nat) : Option (Nat × Nat) :=
  place_control_block func_size sctx_sp sctx_size

/-! ## random_chase_lev -/

/-- The data members of one `random_chase_lev` instance.  `rqueue_` is the
work-stealing deque, listed from the thief end to the owner end; `lqueue_` is the
intrusive list of pinned contexts, front first. -/
structure random_chase_lev where
  idx_ : Nat
  suspend_ : Bool
  flag_ : Bool := false
  rqueue_ : List Nat := []
  lqueue_ : List Nat := []
deriving DecidableEq, Repr

/-- The process-wide state of the policy: the static vector `schedulers_` and the
heap of contexts. -/
structure algo_state where
  schedulers_ : List random_chase_lev := []
  contexts : Nat → context

/-- Replace the context at address `p` by `g` of it. -/
def update_context (p : Nat) (g : context → context) (w : algo_state) : algo_state :=
  { w with contexts := Function.update w.contexts p (g (w.contexts p)) }

/-- Store `s` as the instance at index `i` of the registry. -/
def put_scheduler (i : Nat) (s : random_chase_lev) (w : algo_state) : algo_state :=
  { w with schedulers_ := w.schedulers_.set i s }

/-- What wakes a thread that waits on the condition variable. -/
inductive wake where
  /-- Another thread ran `notify()`: `flag_` is set and the waiters are woken. -/
  | notified
  /-- A wake-up without a notification. -/
  | spurious
  /-- The deadline of a timed wait has passed. -/
  | timeout
deriving DecidableEq, Repr

/-- The call `cnd_.wait( lk, pred)` of the standard library with the predicate
`flag_`: `while ( ! pred() ) wait( lk);`.  The result is the flag when the call
returns, `none` while the thread is still blocked at the end of the wake-ups. -/
def cnd_wait : Bool → List wake → Option Bool
  | true, _ => some true
  | false, [] => none
  | false, wake.notified :: rest => cnd_wait true rest
  | false, _ :: rest => cnd_wait false rest

/-- The call `cnd_.wait_until( lk, time_point, pred)` of the standard library:
`while ( ! pred() ) if ( wait_until( lk, tp) == timeout ) return pred(); return true;`. -/
def cnd_wait_until : Bool → List wake → Option Bool
  | true, _ => some true
  | false, [] => none
  | false, wake.notified :: rest => cnd_wait_until true rest
  | false, wake.spurious :: rest => cnd_wait_until false rest
  | false, wake.timeout :: _ => some false

namespace random_chase_lev

/-- The constructor `random_chase_lev::random_chase_lev( bool suspend)`: the instance
takes the size of the registry as its index and is appended to the registry. -/
def construct (suspend : Bool) (w : algo_state) : algo_state :=
  { w with schedulers_ :=
      w.schedulers_ ++ [{ idx_ := w.schedulers_.length, suspend_ := suspend }] }

/-- Modelled from the spec: `rqueue_.push` (the deque is not in src): the owner pushes
at its own end. -/
def rqueue_push (ctx : Nat) (q : List Nat) : List Nat := q ++ [ctx]

/-- Modelled from the spec: `rqueue_.pop` (the deque is not in src): the owner pops
from the end it pushes to, so it sees its pushes in LIFO order; null when empty. -/
def rqueue_pop (q : List Nat) : Option Nat × List Nat := (q.getLast?, q.dropLast)

/-- Modelled from the spec: `steal()` (random_chase_lev.hpp is not in src) pops from
the thief end of the deque, returning null if it is empty. -/
def rqueue_steal : List Nat → Option Nat × List Nat
  | [] => (none, [])
  | ctx :: rest => (some ctx, rest)

/-- Modelled from the spec: `context::detach` (context.cpp is not in src) clears the
scheduler back-pointer of the context. -/
def detach (ctx : Nat) (w : algo_state) : algo_state :=
  update_context ctx (fun c => { c with scheduler_ := none }) w

/-- Modelled from the spec: `context::active()->attach( ctx)` (context.cpp is not in
src) sets the back-pointer of `ctx` to the scheduler of the active context. -/
def attach (active ctx : Nat) (w : algo_state) : algo_state :=
  update_context ctx (fun c => { c with scheduler_ := (w.contexts active).scheduler_ }) w

/-- The method `random_chase_lev::awakened` of the instance at index `self`. -/
def awakened (self ctx : Nat) (w : algo_state) : algo_state :=
  match w.schedulers_[self]? with
  | none => w
  | some s =>
    if !(w.contexts ctx).pinned then
      put_scheduler self { s with rqueue_ := rqueue_push ctx s.rqueue_ } (detach ctx w)
    else
      put_scheduler self { s with lqueue_ := s.lqueue_ ++ [ctx] } w

/-- The loop `do { idx = distribution_( generator_); } while ( idx == idx_);` over the
outputs of the distribution still to come: the first output that differs from
`idx_`, `none` when the outputs given are used up with the loop still running. -/
def pick_index (idx_ : Nat) : List Nat → Option Nat
  | [] => none
  | idx :: rest => if idx = idx_ then pick_index idx_ rest else some idx

/-- The method `random_chase_lev::pick_next` of the instance at index `self`, called
on the thread whose active context is `active`; `draws` are the outputs of
`distribution_( generator_)` to come.  The inner option is the pointer returned
(`none` is null), the outer one is `none` when the call has not returned. -/
def pick_next (self active : Nat) (draws : List Nat) (w : algo_state) :
    Option (Option Nat × algo_state) :=
  match w.schedulers_[self]? with
  | none => none
  | some s =>
    match rqueue_pop s.rqueue_ with
    | (some ctx, q) => some (some ctx, attach active ctx (put_scheduler self { s with rqueue_ := q } w))
    | (none, q) =>
      let w1 := put_scheduler self { s with rqueue_ := q } w
      match s.lqueue_ with
      | ctx :: rest => some (some ctx, put_scheduler self { s with rqueue_ := q, lqueue_ := rest } w)
      | [] =>
        match pick_index s.idx_ draws with
        | none => none
        | some idx =>
          match w1.schedulers_[idx]? with
          | none => none
          | some other =>
            match rqueue_steal other.rqueue_ with
            | (some ctx, r) =>
              some (some ctx, attach active ctx (put_scheduler idx { other with rqueue_ := r } w1))
            | (none, r) => some (none, put_scheduler idx { other with rqueue_ := r } w1)

/-- The method `random_chase_lev::suspend_until`; `wakes` is what reaches the
condition variable while the thread waits.  The result is `none` while the thread is
still parked. -/
def suspend_until (time_point : Nat) (wakes : List wake) (s : random_chase_lev) :
    Option random_chase_lev :=
  if s.suspend_ then
    if time_point_max = time_point then
      match cnd_wait s.flag_ wakes with
      | none => none
      | some _ => some { s with flag_ := false }
    else
      match cnd_wait_until s.flag_ wakes with
      | none => none
      | some _ => some { s with flag_ := false }
  else some s

/-- The method `random_chase_lev::notify`. -/
def notify (s : random_chase_lev) : random_chase_lev :=
  if s.suspend_ then { s with flag_ := true } else s

end random_chase_lev

/-- A registry with one instance, built by the constructor; every context is a fresh
worker. -/
def registry1 : algo_state :=
  random_chase_lev.construct true { contexts := fun _ => context.worker }

/-- A registry with two instances; the contexts at odd addresses are pinned, the
context at 1 belongs to scheduler 100. -/
def registry2 : algo_state :=
  random_chase_lev.construct true
    (random_chase_lev.construct true
      { contexts := fun p =>
          if p = 1 then { scheduler_ := some 100, pinned := true }
          else if p % 2 = 1 then { scheduler_ := some 200, pinned := true }
          else { scheduler_ := some 300 } })

/-- The registry of two instances after `awakened` of the pinned context 3 on
instance 0. -/
def registry_local : algo_state := random_chase_lev.awakened 0 3 registry2

/-- The registry of two instances after `awakened` of the workers 6 and 8 on
instance 1. -/
def registry_remote : algo_state :=
  random_chase_lev.awakened 1 8 (random_chase_lev.awakened 1 6 registry2)

/-- The registry of two instances after `awakened` of the worker 4 and of the pinned
context 3 on instance 0. -/
def registry_both : algo_state :=
  random_chase_lev.awakened 0 3 (random_chase_lev.awakened 0 4 registry2)

/-- The two ready queues of an instance hold contexts of their own kind: `lqueue_`
pinned ones, `rqueue_` the others.  `awakened` is the only function that fills the
queues, and it keeps this. -/
def queues_by_kind (w : algo_state) (s : random_chase_lev) : Bool :=
  s.lqueue_.all (fun c => (w.contexts c).pinned) &&
    s.rqueue_.all (fun c => !(w.contexts c).pinned)

/-! ## fiber_manager::run, turn by turn -/

namespace fiber_manager

/-- Modelled from the spec: `terminated_queue::clear` (terminated_queue.hpp is not in
src) destroys the fibers of the terminated queue and leaves the queue empty.  The
result is the state and the fibers destroyed, in queue order. -/
def tqueue_clear (m : fiber_manager) : fiber_manager × List Nat :=
  ({ m with tqueue_ := [] }, m.tqueue_)

/-- Modelled from the spec: `sched_algo_->pick_next()` of the round-robin policy
(round_robin.hpp is not in src) pops the front of the FIFO of ready fibers; null when
it is empty. -/
def sched_pick_next (m : fiber_manager) : Option Nat × fiber_manager :=
  match m.rqueue with
  | [] => (none, m)
  | f :: rest => (some f, { m with rqueue := rest })

/-- One turn of the loop of `fiber_manager::run` on the state of the scheduler, in the
order of the source: `move_to`, `pick_next`, and for a fiber `f` picked
`tqueue_.clear()`, `resume_( f)`, `tqueue_.clear()`, `return` (the second `clear()` is
the first statement that runs after the switch, on the stack of `f`); with nothing to
pick the thread sleeps for `wait_interval_`.  The result is the state, the fibers
destroyed during the turn, and whether `run` returns after it. -/
def run_turn (m : fiber_manager) : fiber_manager × List Nat × Bool :=
  let m1 := wqueue_move_to m
  match sched_pick_next m1 with
  | (some f, m2) =>
    let c1 := tqueue_clear m2
    let m3 := resume_ f c1.1
    let c2 := tqueue_clear m3
    (c2.1, c1.2 ++ c2.2, true)
  | (none, m2) => ({ m2 with now := m2.now + m2.wait_interval_ }, [], false)

end fiber_manager

/-- A scheduler whose active fiber, at 2, has just terminated (it still owns an FLS
entry and a wait list); the ready fiber at 3 is next in the ready queue and the
fiber at 5, terminated a round earlier, is in the terminated queue. -/
def manager_switch : fiber_manager :=
  { fibers := fun p =>
      if p = 2 then { state_ := state_t.TERMINATED, use_count_ := 2, waiting_ := [4],
                      fss_data_ := [(7, ⟨100, 1⟩)] }
      else if p = 5 then { state_ := state_t.TERMINATED }
      else { },
    active_fiber_ := 2,
    rqueue := [3],
    tqueue_ := [5] }

/-- A scheduler whose active fiber, at 1, has yielded: it is ready and in the wait
queue; the fiber at 5 is in the terminated queue. -/
def manager_yield : fiber_manager :=
  { fibers := fun p => if p = 5 then { state_ := state_t.TERMINATED } else { },
    active_fiber_ := 1,
    wqueue_ := [1],
    tqueue_ := [5] }

/-! ## Basic facts about the heap and the log -/

@[simp]
theorem update_fiber_fibers (p : Nat) (g : worker_fiber → worker_fiber) (m : fiber_manager)
    (q : Nat) :
    (update_fiber p g m).fibers q = if q = p then g (m.fibers p) else m.fibers q := by
  by_cases h : q = p
  · subst h; simp [update_fiber]
  · simp [update_fiber, Function.update, h]

@[simp]
theorem update_fiber_log (p : Nat) (g : worker_fiber → worker_fiber) (m : fiber_manager) :
    (update_fiber p g m).log = m.log := rfl

@[simp]
theorem emit_fibers (e : event) (m : fiber_manager) : (emit e m).fibers = m.fibers := rfl

@[simp]
theorem emit_log (e : event) (m : fiber_manager) : (emit e m).log = m.log ++ [e] := rfl

theorem set_ready_fibers (p : Nat) (m : fiber_manager) (q : Nat) :
    (worker_fiber.set_ready p m).fibers q =
      if q = p then { m.fibers p with state_ := state_t.READY } else m.fibers q := by
  simp [worker_fiber.set_ready]

theorem set_ready_log (p : Nat) (m : fiber_manager) :
    (worker_fiber.set_ready p m).log = m.log ++ [event.move_to_run p] := by
  simp [worker_fiber.set_ready]

/-- Making a list of fibers ready logs one `move_to_run` per list position, in order. -/
theorem foldl_set_ready_log (ws : List Nat) (m : fiber_manager) :
    (ws.foldl (fun s p => worker_fiber.set_ready p s) m).log =
      m.log ++ ws.map event.move_to_run := by
  induction ws generalizing m with
  | nil => simp
  | cons w ws ih => simp [List.foldl_cons, ih, set_ready_log]

/-- Making a list of fibers ready changes the state of its members only, to `READY`. -/
theorem foldl_set_ready_fibers (ws : List Nat) (m : fiber_manager) (q : Nat) :
    (ws.foldl (fun s p => worker_fiber.set_ready p s) m).fibers q =
      if q ∈ ws then { m.fibers q with state_ := state_t.READY } else m.fibers q := by
  induction ws generalizing m with
  | nil => simp
  | cons w ws ih =>
    rw [List.foldl_cons, ih, set_ready_fibers]
    by_cases hq : q = w
    · subst hq; simp
    · by_cases hm : q ∈ ws <;> simp [hq, hm]

theorem foldl_do_cleanup_log (l : fss_data_t) (m : fiber_manager) :
    (l.foldl (fun s data => worker_fiber.do_cleanup data.2 s) m).log =
      m.log ++ l.map (fun data => event.cleanup data.2.cleanup_function data.2.vp) := by
  induction l generalizing m with
  | nil => simp
  | cons d l ih =>
    rw [List.foldl_cons, ih]
    simp [worker_fiber.do_cleanup]

theorem foldl_do_cleanup_fibers (l : fss_data_t) (m : fiber_manager) :
    (l.foldl (fun s data => worker_fiber.do_cleanup data.2 s) m).fibers = m.fibers := by
  induction l generalizing m with
  | nil => simp
  | cons d l ih =>
    rw [List.foldl_cons, ih]
    simp [worker_fiber.do_cleanup]

/-! ## fiber_manager::wait_until_ -/

/-- The shape of `wait_until_`: what it yields once `run` has come back. -/
theorem wait_until_eq (others : List action) (tp : Nat) (m : fiber_manager) :
    fiber_manager.wait_until_ others tp m =
      (fiber_manager.run others
        (fiber_manager.wqueue_push m.active_fiber_
          (worker_fiber.time_point m.active_fiber_ tp
            (worker_fiber.set_waiting m.active_fiber_ m)))).map
        (fun m4 =>
          (m4,
            if (m4.fibers m4.active_fiber_).interruption_requested
                && !(m4.fibers m4.active_fiber_).interruption_blocked_get then
              Except.error exn.fiber_interrupted
            else Except.ok (decide (m4.now < tp)))) := by
  unfold fiber_manager.wait_until_
  simp only [worker_fiber.set_waiting, worker_fiber.time_point, update_fiber,
    fiber_manager.wqueue_push]
  cases fiber_manager.run others _ with
  | none => rfl
  | some m4 =>
    simp only [Option.map_some', fiber_manager.interruption_point]
    by_cases h : ((m4.fibers m4.active_fiber_).interruption_requested
        && !(m4.fibers m4.active_fiber_).interruption_blocked_get) = true
    · rw [if_pos h, if_pos h]
    · rw [if_neg h, if_neg h]

/-- C1, counterexample: the deadline 5 has passed when the fiber is resumed (the clock
reads 10, no interruption is pending) and `wait_until_` returns `false`, where the
claim says `true`. -/
theorem wait_until_timeout_returns_false :
    (fiber_manager.wait_until_ [action.elapse 10] 5 (manager0 false)).map
        (fun r => (r.2, r.1.now, decide (r.1.now ≥ 5))) =
      some (Except.ok false, 10, true) := by
  rfl

/-- C1, amended: when `wait_until_` comes back without an interruption, with the clock
reading `now` at the resumption, it returns `true` exactly when `now < tp` (the fiber
was made ready before the deadline) and `false` exactly when `tp ≤ now` (timeout). -/
theorem wait_until_returns_true_iff_before_deadline (others : List action) (tp : Nat)
    (m : fiber_manager) (b : Bool) (now : Nat)
    (hr : outcome (fiber_manager.wait_until_ others tp m) = some (Except.ok b))
    (hn : resumed_now (fiber_manager.wait_until_ others tp m) = some now) :
    (b = true ↔ now < tp) ∧ (b = false ↔ tp ≤ now) := by
  rw [wait_until_eq] at hr hn
  cases hrun : fiber_manager.run others _ with
  | none => rw [hrun] at hr; simp [outcome] at hr
  | some m4 =>
    rw [hrun] at hr hn
    simp only [outcome, resumed_now, Option.map_some', Option.some.injEq] at hr hn
    subst hn
    split at hr
    · cases hr
    · injection hr with hb
      subst hb
      simp

/-- C1, witness of the amended statement: woken by `set_ready` at clock 0 with
deadline 5 the call returns `true`. -/
theorem wait_until_returns_true_iff_before_deadline_witness :
    (outcome (fiber_manager.wait_until_ [action.set_ready 1] 5 (manager0 false)) =
        some (Except.ok true) ∧
      resumed_now (fiber_manager.wait_until_ [action.set_ready 1] 5 (manager0 false)) =
        some 0) ∧
    ((true = true ↔ 0 < 5) ∧ (true = false ↔ 5 ≤ 0)) :=
  ⟨⟨rfl, rfl⟩,
    wait_until_returns_true_iff_before_deadline [action.set_ready 1] 5 (manager0 false)
      true 0 rfl rfl⟩

/-! ## Fiber-local storage -/

/-- C2, failing input: the key 7 holds data 100; `set_fss_data( 7, cleanup 2, 200, ·)`
leaves 100 in place for either value of `cleanup_existing` (with `true` the cleanup of
100 has run and the pointer is still returned); a key that was never set gives null. -/
theorem set_fss_data_keeps_existing_entry :
    worker_fiber.get_fss_data 1 7 (worker_fiber.set_fss_data 1 7 2 200 false manager_fss) = 100
    ∧ worker_fiber.get_fss_data 1 7 (worker_fiber.set_fss_data 1 7 2 200 true manager_fss) = 100
    ∧ (worker_fiber.set_fss_data 1 7 2 200 true manager_fss).log = [event.cleanup 1 100]
    ∧ ((worker_fiber.set_fss_data 1 7 2 200 true manager_fss).fibers 1).fss_data_ =
        [(7, ⟨100, 1⟩)]
    ∧ worker_fiber.get_fss_data 1 8 manager_fss = 0 := by
  refine ⟨rfl, rfl, rfl, rfl, rfl⟩

/-- C3, failing input: on a fiber without an entry for key 7,
`set_fss_data( 7, cleanup 2, null, ·)` installs the entry `(null, cleanup 2)`:
`get_fss_data` is null, but the map holds the key and `release()` calls cleanup 2 on
the null pointer. -/
theorem set_fss_data_null_installs_entry :
    ((worker_fiber.set_fss_data 1 7 2 0 false (manager0 false)).fibers 1).fss_data_ =
        [(7, ⟨0, 2⟩)]
    ∧ worker_fiber.get_fss_data 1 7 (worker_fiber.set_fss_data 1 7 2 0 false (manager0 false)) = 0
    ∧ (worker_fiber.release 1
        (worker_fiber.set_fss_data 1 7 2 0 false (manager0 false))).log = [event.cleanup 2 0]
    ∧ ((worker_fiber.set_fss_data 1 7 2 0 true manager_fss).fibers 1).fss_data_ = [] := by
  refine ⟨rfl, rfl, rfl, rfl⟩

/-- C4: `set_fss_data` calls the cleanup function stored with the prior entry of the
key, on the prior data pointer, once when the key had an entry and `cleanup_existing`
is set, and makes no call otherwise; the calls do not depend on the cleanup function
and the data pointer that are passed in. -/
theorem set_fss_data_cleanup_calls (this vp cleanup_fn data : Nat) (cleanup_existing : Bool)
    (m : fiber_manager) :
    (worker_fiber.set_fss_data this vp cleanup_fn data cleanup_existing m).log =
        m.log ++
          (match fss_find vp (m.fibers this).fss_data_ with
            | some d =>
              if cleanup_existing then [event.cleanup d.cleanup_function d.vp] else []
            | none => [])
    ∧ ∀ cleanup_fn2 data2 : Nat,
        (worker_fiber.set_fss_data this vp cleanup_fn2 data2 cleanup_existing m).log =
          (worker_fiber.set_fss_data this vp cleanup_fn data cleanup_existing m).log := by
  have key : ∀ fn d : Nat,
      (worker_fiber.set_fss_data this vp fn d cleanup_existing m).log =
        m.log ++
          (match fss_find vp (m.fibers this).fss_data_ with
            | some e =>
              if cleanup_existing then [event.cleanup e.cleanup_function e.vp] else []
            | none => []) := by
    intro fn d
    unfold worker_fiber.set_fss_data
    cases fss_find vp (m.fibers this).fss_data_ with
    | none => simp
    | some e =>
      cases cleanup_existing <;> by_cases hd : d = 0 <;>
        simp [hd, worker_fiber.do_cleanup]
  exact ⟨key cleanup_fn data, fun fn2 d2 => (key fn2 d2).trans (key cleanup_fn data).symm⟩

/-! ## worker_fiber::join -/

/-- C5: `join( p)` on a terminated fiber returns `false` and leaves its wait list as
it is; otherwise it returns `true` and appends `p` to the wait list; the state and
the flags of every fiber are unchanged in both cases. -/
theorem worker_join_spec (this p : Nat) (m : fiber_manager) :
    ((m.fibers this).is_terminated = true →
        (worker_fiber.join this p m).1 = false ∧
        ((worker_fiber.join this p m).2.fibers this).waiting_ = (m.fibers this).waiting_)
    ∧ ((m.fibers this).is_terminated = false →
        (worker_fiber.join this p m).1 = true ∧
        ((worker_fiber.join this p m).2.fibers this).waiting_ =
          (m.fibers this).waiting_ ++ [p])
    ∧ ∀ q : Nat,
        ((worker_fiber.join this p m).2.fibers q).state_ = (m.fibers q).state_ ∧
        ((worker_fiber.join this p m).2.fibers q).flags_ = (m.fibers q).flags_ := by
  refine ⟨fun h => ?_, fun h => ?_, fun q => ?_⟩
  · simp [worker_fiber.join, h]
  · simp [worker_fiber.join, h]
  · unfold worker_fiber.join
    by_cases ht : (m.fibers this).is_terminated = true
    · simp [ht]
    · by_cases hq : q = this
      · subst hq; simp [ht]
      · simp [ht, hq]

/-- C5, witness: joining the terminated fiber at 2 and the live fiber at 3. -/
theorem worker_join_spec_witness :
    ((manager_terminated.fibers 2).is_terminated = true ∧
      (worker_fiber.join 2 1 manager_terminated).1 = false ∧
      ((worker_fiber.join 2 1 manager_terminated).2.fibers 2).waiting_ = [3, 4])
    ∧ ((manager_terminated.fibers 3).is_terminated = false ∧
      (worker_fiber.join 3 1 manager_terminated).1 = true ∧
      ((worker_fiber.join 3 1 manager_terminated).2.fibers 3).waiting_ = [] ++ [1]) :=
  ⟨⟨rfl, (worker_join_spec 2 1 manager_terminated).1 rfl⟩,
   ⟨rfl, (worker_join_spec 3 1 manager_terminated).2.1 rfl⟩⟩

/-! ## worker_fiber::release -/

/-- C6: `release()`, on a terminated fiber as on any other, empties the wait list,
calls `set_ready` once per element of the former wait list (in list order, each waiter
ends in state `READY`) and after that calls the cleanup function of every entry of the
FLS map once on the data pointer of the entry. -/
theorem release_spec (this : Nat) (m : fiber_manager) :
    ((worker_fiber.release this m).fibers this).waiting_ = []
    ∧ (worker_fiber.release this m).log =
        m.log ++ (m.fibers this).waiting_.map event.move_to_run ++
          (m.fibers this).fss_data_.map
            (fun data => event.cleanup data.2.cleanup_function data.2.vp)
    ∧ ∀ w ∈ (m.fibers this).waiting_,
        ((worker_fiber.release this m).fibers w).state_ = state_t.READY := by
  have hfss : ∀ ws : List Nat,
      ((ws.foldl (fun s p => worker_fiber.set_ready p s)
          (update_fiber this (fun f => { f with waiting_ := [] }) m)).fibers this).fss_data_ =
        (m.fibers this).fss_data_ := by
    intro ws
    rw [foldl_set_ready_fibers]
    by_cases h : this ∈ ws <;> simp [h]
  refine ⟨?_, ?_, ?_⟩
  · unfold worker_fiber.release
    simp only [foldl_do_cleanup_fibers, foldl_set_ready_fibers]
    by_cases h : this ∈ (m.fibers this).waiting_ <;> simp [h]
  · unfold worker_fiber.release
    simp only [foldl_do_cleanup_log, foldl_set_ready_log, hfss, update_fiber_log]
  · intro w hw
    unfold worker_fiber.release
    simp only [foldl_do_cleanup_fibers, foldl_set_ready_fibers]
    simp [hw]

/-- C6, witness: the terminated fiber at 2 with wait list `[3, 4]` and two FLS
entries. -/
theorem release_spec_witness :
    (manager_terminated.fibers 2).is_terminated = true
    ∧ ((worker_fiber.release 2 manager_terminated).fibers 2).waiting_ = []
    ∧ (worker_fiber.release 2 manager_terminated).log =
        [event.move_to_run 3, event.move_to_run 4, event.cleanup 1 100, event.cleanup 2 200]
    ∧ ((worker_fiber.release 2 manager_terminated).fibers 3).state_ = state_t.READY :=
  ⟨rfl, (release_spec 2 manager_terminated).1, (release_spec 2 manager_terminated).2.1,
    (release_spec 2 manager_terminated).2.2 3 (by decide)⟩

/-! ## The worker trampoline -/

/-- C7: when the user function returns, throws `fiber_interrupted` or throws
`forced_unwind`, and when unwinding was requested at the first resume (the user
function is then not invoked), the entry lambda calls `set_terminated_()`,
`release()`, `suspend()` in this order and never `std::terminate()`; when any other
exception escapes the user function it calls `std::terminate()` and none of the
three. -/
theorem entry_steps (unwinding_requested : Bool) (fn : Except exn Unit) (tag : Nat) :
    entry unwinding_requested (Except.ok ()) =
        (if unwinding_requested then [] else [step.invoke]) ++
          [step.set_terminated_, step.release, step.suspend]
    ∧ entry unwinding_requested (Except.error exn.fiber_interrupted) =
        (if unwinding_requested then [] else [step.invoke]) ++
          [step.set_terminated_, step.release, step.suspend]
    ∧ entry unwinding_requested (Except.error exn.forced_unwind) =
        (if unwinding_requested then [] else [step.invoke]) ++
          [step.set_terminated_, step.release, step.suspend]
    ∧ entry true fn = [step.set_terminated_, step.release, step.suspend]
    ∧ entry false (Except.error (exn.other tag)) = [step.invoke, step.terminate] := by
  refine ⟨?_, ?_, ?_, ?_, ?_⟩
  · cases unwinding_requested <;> rfl
  · cases unwinding_requested <;> rfl
  · cases unwinding_requested <;> rfl
  · rfl
  · rfl

/-! ## Terminated fibers -/

/-- C8, failing input: the fiber at 2 is terminated; `request_interruption( true)` on
it calls `set_ready()`, whose assertion on the previous state fails; with assertions
compiled out the fiber is `READY` afterwards, `move_to_run` has handed it to the
scheduler, and `resume_` (whose assertion `is_ready()` holds) makes it the running,
active fiber and resumes it.  A direct `set_ready()` does the same. -/
theorem request_interruption_revives_terminated :
    (manager_terminated.fibers 2).is_terminated = true
    ∧ worker_fiber.set_ready_assert (manager_terminated.fibers 2).state_ = false
    ∧ ((worker_fiber.request_interruption 2 true manager_terminated).fibers 2).state_ =
        state_t.READY
    ∧ (worker_fiber.request_interruption 2 true manager_terminated).log = [event.move_to_run 2]
    ∧ ((fiber_manager.resume_ 2
          (worker_fiber.request_interruption 2 true manager_terminated)).fibers 2).state_ =
        state_t.RUNNING
    ∧ (fiber_manager.resume_ 2
          (worker_fiber.request_interruption 2 true manager_terminated)).active_fiber_ = 2
    ∧ (fiber_manager.resume_ 2
          (worker_fiber.request_interruption 2 true manager_terminated)).log =
        [event.move_to_run 2, event.resume 2]
    ∧ ((worker_fiber.set_ready 2 manager_terminated).fibers 2).state_ = state_t.READY := by
  refine ⟨rfl, rfl, rfl, rfl, rfl, rfl, rfl, rfl⟩

/-! ## fiber_manager::join and the interruption points -/

/-- C9, failing input: the fiber at 1 runs with interruption blocked and joins the
ready fiber at 2; while it waits another fiber calls `request_interruption( true)` on
it, which makes it ready.  Resumed, it passes the interruption point (requested and
blocked) and `join` returns normally although the fiber at 2 is still `READY`: the
closing assertion `f->is_terminated()` is false. -/
theorem join_returns_before_termination :
    ((manager0 true).fibers (manager0 true).active_fiber_).is_running = true
    ∧ outcome (fiber_manager.join [action.request_interruption 1 true] 2 (manager0 true)) =
        some (Except.ok ())
    ∧ resumed_flags (fiber_manager.join [action.request_interruption 1 true] 2 (manager0 true)) =
        some (true, true)
    ∧ resumed_state 2
        (fiber_manager.join [action.request_interruption 1 true] 2 (manager0 true)) =
        some state_t.READY
    ∧ (fiber_manager.join [action.request_interruption 1 true] 2 (manager0 true)).map
        (fun r => (r.1.fibers 2).is_terminated) = some false := by
  refine ⟨rfl, rfl, rfl, rfl, rfl⟩

/-- The statements after `run()` in `wait_until_` and `join`, for a result `v`. -/
theorem after_run_eq {α : Type} (o : Option fiber_manager) (v : fiber_manager → α) :
    (match o with
      | none => none
      | some m4 =>
        match fiber_manager.interruption_point m4 with
        | Except.error e => some (m4, Except.error e)
        | Except.ok _ => some (m4, Except.ok (v m4))) =
      o.map (fun m4 =>
        (m4,
          if (m4.fibers m4.active_fiber_).interruption_requested
              && !(m4.fibers m4.active_fiber_).interruption_blocked_get then
            Except.error exn.fiber_interrupted
          else Except.ok (v m4))) := by
  cases o with
  | none => rfl
  | some m4 =>
    simp only [Option.map_some', fiber_manager.interruption_point]
    by_cases h : ((m4.fibers m4.active_fiber_).interruption_requested
        && !(m4.fibers m4.active_fiber_).interruption_blocked_get) = true
    · rw [if_pos h, if_pos h]
    · rw [if_neg h, if_neg h]

/-- The shape of `join`: what it yields once `run` has come back. -/
theorem join_eq (others : List action) (f : Nat) (m : fiber_manager) :
    ∃ m3 : fiber_manager,
      fiber_manager.join others f m =
        (fiber_manager.run others m3).map
          (fun m4 =>
            (m4,
              if (m4.fibers m4.active_fiber_).interruption_requested
                  && !(m4.fibers m4.active_fiber_).interruption_blocked_get then
                Except.error exn.fiber_interrupted
              else Except.ok ())) := by
  unfold fiber_manager.join
  exact ⟨_, after_run_eq _ (fun _ => ())⟩

/-- The shape of `yield`: it hands back `run`'s state and raises nothing. -/
theorem yield_eq (others : List action) (m : fiber_manager) :
    ∃ m2 : fiber_manager,
      fiber_manager.yield others m =
        (fiber_manager.run others m2).map (fun m3 => (m3, Except.ok ())) := by
  unfold fiber_manager.yield
  refine ⟨fiber_manager.wqueue_push m.active_fiber_ (worker_fiber.set_ready m.active_fiber_ m),
    ?_⟩
  show (match fiber_manager.run others
      (fiber_manager.wqueue_push m.active_fiber_ (worker_fiber.set_ready m.active_fiber_ m)) with
    | none => none
    | some m3 => some (m3, Except.ok ())) = _
  cases fiber_manager.run others _ <;> rfl

/-- C10: `yield` never raises an exception, whatever the flags of the fiber are;
`wait_until_` and `join` raise `fiber_interrupted` exactly when, at the moment the
fiber is resumed, `interruption_requested` is set and `interruption_blocked` is
clear. -/
theorem interruption_points (others : List action) (m : fiber_manager) (tp f : Nat) :
    (∀ r : Except exn Unit,
      outcome (fiber_manager.yield others m) = some r → r = Except.ok ())
    ∧ (∀ requested blocked : Bool,
      resumed_flags (fiber_manager.wait_until_ others tp m) = some (requested, blocked) →
        (outcome (fiber_manager.wait_until_ others tp m) =
            some (Except.error exn.fiber_interrupted)
          ↔ requested = true ∧ blocked = false))
    ∧ (∀ requested blocked : Bool,
      resumed_flags (fiber_manager.join others f m) = some (requested, blocked) →
        (outcome (fiber_manager.join others f m) = some (Except.error exn.fiber_interrupted)
          ↔ requested = true ∧ blocked = false)) := by
  refine ⟨?_, ?_, ?_⟩
  · intro r hr
    obtain ⟨m2, hy⟩ := yield_eq others m
    rw [hy] at hr
    cases hrun : fiber_manager.run others m2 with
    | none => rw [hrun] at hr; simp [outcome] at hr
    | some m3 =>
      rw [hrun] at hr
      simp only [outcome, Option.map_some', Option.some.injEq] at hr
      exact hr.symm
  · intro requested blocked hf
    rw [wait_until_eq] at hf ⊢
    cases hrun : fiber_manager.run others _ with
    | none => rw [hrun] at hf; simp [resumed_flags] at hf
    | some m4 =>
      rw [hrun] at hf
      simp only [resumed_flags, Option.map_some', Option.some.injEq, Prod.mk.injEq] at hf
      obtain ⟨h1, h2⟩ := hf
      simp only [outcome, Option.map_some', h1, h2]
      cases requested <;> cases blocked <;> simp
  · intro requested blocked hf
    obtain ⟨m3, hj⟩ := join_eq others f m
    rw [hj] at hf ⊢
    cases hrun : fiber_manager.run others m3 with
    | none => rw [hrun] at hf; simp [resumed_flags] at hf
    | some m4 =>
      rw [hrun] at hf
      simp only [resumed_flags, Option.map_some', Option.some.injEq, Prod.mk.injEq] at hf
      obtain ⟨h1, h2⟩ := hf
      simp only [outcome, Option.map_some', h1, h2]
      cases requested <;> cases blocked <;> simp

/-- C10, witness: `yield` with an interruption pending returns normally; `wait_until_`
and `join` woken by `request_interruption( true)` raise when interruption is not
blocked. -/
theorem interruption_points_witness :
    (outcome (fiber_manager.yield [action.request_interruption 1 true] (manager0 false)) =
        some (Except.ok ()) ∧ Except.ok () = (Except.ok () : Except exn Unit))
    ∧ (resumed_flags
          (fiber_manager.wait_until_ [action.request_interruption 1 true] 5 (manager0 false)) =
        some (true, false)
      ∧ (outcome
            (fiber_manager.wait_until_ [action.request_interruption 1 true] 5 (manager0 false)) =
          some (Except.error exn.fiber_interrupted) ↔ true = true ∧ false = false))
    ∧ (resumed_flags
          (fiber_manager.join [action.request_interruption 1 true] 2 (manager0 false)) =
        some (true, false)
      ∧ (outcome (fiber_manager.join [action.request_interruption 1 true] 2 (manager0 false)) =
          some (Except.error exn.fiber_interrupted) ↔ true = true ∧ false = false)) :=
  ⟨⟨rfl,
      (interruption_points [action.request_interruption 1 true] (manager0 false) 5 2).1
        (Except.ok ()) rfl⟩,
    ⟨rfl,
      (interruption_points [action.request_interruption 1 true] (manager0 false) 5 2).2.1
        true false rfl⟩,
    ⟨rfl,
      (interruption_points [action.request_interruption 1 true] (manager0 false) 5 2).2.2
        true false rfl⟩⟩

/-! ## context::id -/

/-- C15: the comparison operators of `context::id` are a total order consistent with
equality: exactly one of `<`, `==`, `>` holds; `!=` is the negation of `==`; `<=` is
`<` or `==`; `>=` is `>` or `==`; `<` is transitive; a default-constructed id converts
to `false` and has `operator!` true, an id of a non-null context converts to `true`. -/
theorem id_total_order (a b c : context.id) (p : Nat) :
    ((a.operator_lt b = true ∧ a.operator_eq b = false ∧ a.operator_gt b = false)
      ∨ (a.operator_lt b = false ∧ a.operator_eq b = true ∧ a.operator_gt b = false)
      ∨ (a.operator_lt b = false ∧ a.operator_eq b = false ∧ a.operator_gt b = true))
    ∧ a.operator_ne b = !(a.operator_eq b)
    ∧ a.operator_le b = (a.operator_lt b || a.operator_eq b)
    ∧ a.operator_ge b = (a.operator_gt b || a.operator_eq b)
    ∧ (a.operator_lt b = true → b.operator_lt c = true → a.operator_lt c = true)
    ∧ (context.id.operator_bool {} = false ∧ context.id.operator_not {} = true)
    ∧ (p ≠ 0 → context.id.operator_bool ⟨p⟩ = true ∧ context.id.operator_not ⟨p⟩ = false) := by
  obtain ⟨x⟩ := a
  obtain ⟨y⟩ := b
  obtain ⟨z⟩ := c
  simp only [context.id.operator_lt, context.id.operator_eq, context.id.operator_gt,
    context.id.operator_ne, context.id.operator_le, context.id.operator_ge,
    context.id.operator_bool, context.id.operator_not]
  refine ⟨?_, ?_, ?_, ?_, ?_, ?_, ?_⟩
  · rcases Nat.lt_trichotomy x y with h | h | h
    · left; simp; omega
    · right; left; simp; omega
    · right; right; simp; omega
  · simp
  · by_cases h1 : y < x <;> by_cases h2 : x < y <;> by_cases h3 : x = y <;>
      simp [h1, h2, h3] <;> omega
  · by_cases h1 : y < x <;> by_cases h2 : x < y <;> by_cases h3 : x = y <;>
      simp [h1, h2, h3] <;> omega
  · simp; omega
  · simp
  · intro hp; simp; omega

/-- C15, witness: the ids of the control blocks at 8, 16 and 24. -/
theorem id_total_order_witness :
    ((⟨8⟩ : context.id).operator_lt ⟨16⟩ = true ∧ (⟨16⟩ : context.id).operator_lt ⟨24⟩ = true
      ∧ (⟨8⟩ : context.id).operator_lt ⟨24⟩ = true)
    ∧ ((8 : Nat) ≠ 0 ∧ context.id.operator_bool ⟨8⟩ = true ∧ context.id.operator_not ⟨8⟩ = false) :=
  ⟨⟨rfl, rfl, (id_total_order ⟨8⟩ ⟨16⟩ ⟨24⟩ 8).2.2.2.2.1 rfl rfl⟩,
   ⟨by decide, (id_total_order ⟨8⟩ ⟨16⟩ ⟨24⟩ 8).2.2.2.2.2.2 (by decide)⟩⟩

/-! ## Reference counting -/

theorem size_t_range_eq : size_t_range = 18446744073709551616 := by
  norm_num [size_t_range]

theorem add_ref_use_count (ctx : context) (h : ctx.use_count_ + 1 < size_t_range) :
    (context.intrusive_ptr_add_ref ctx).use_count_ = ctx.use_count_ + 1 := by
  simp only [context.intrusive_ptr_add_ref]
  exact Nat.mod_eq_of_lt h

theorem add_ref_destructor_runs (ctx : context) :
    (context.intrusive_ptr_add_ref ctx).destructor_runs = ctx.destructor_runs := rfl

theorem release_use_count (ctx : context) (h0 : 0 < ctx.use_count_)
    (h : ctx.use_count_ < size_t_range) :
    (context.intrusive_ptr_release ctx).use_count_ = ctx.use_count_ - 1 := by
  have hc : (ctx.use_count_ + size_t_range - 1) % size_t_range = ctx.use_count_ - 1 := by
    rw [size_t_range_eq] at h ⊢
    omega
  simp only [context.intrusive_ptr_release, hc]
  split <;> rfl

theorem release_destructor_runs (ctx : context) (h0 : 0 < ctx.use_count_)
    (h : ctx.use_count_ < size_t_range) :
    (context.intrusive_ptr_release ctx).destructor_runs =
      ctx.destructor_runs + (if ctx.use_count_ = 1 then 1 else 0) := by
  have hc : (ctx.use_count_ + size_t_range - 1) % size_t_range = ctx.use_count_ - 1 := by
    rw [size_t_range_eq] at h ⊢
    omega
  simp only [context.intrusive_ptr_release, hc]
  by_cases h1 : ctx.use_count_ = 1
  · simp [h1]
  · have : ctx.use_count_ - 1 ≠ 0 := by omega
    simp [h1, this]

/-- The call that runs the destructor is the first one at which the releases exceed
the add_refs by the count the sequence started with. -/
theorem destroyed_at_iff (calls : List context.ref_call) :
    ∀ (ctx : context) (i : Nat), 0 < ctx.use_count_ →
      ctx.use_count_ + calls.length < size_t_range →
      (context.destroyed_at calls ctx = some i ↔
        i < calls.length ∧ context.excess (calls.take (i + 1)) = ctx.use_count_ ∧
          ∀ j < i, context.excess (calls.take (j + 1)) ≠ ctx.use_count_) := by
  induction calls with
  | nil => intro ctx i _ _; simp [context.destroyed_at]
  | cons c rest ih =>
    intro ctx i h0 hlen
    simp only [List.length_cons] at hlen
    cases c with
    | add_ref =>
      have hu := add_ref_use_count ctx (by omega)
      have ih1 := ih (context.intrusive_ptr_add_ref ctx)
      simp only [context.destroyed_at, context.ref_call.apply, add_ref_destructor_runs,
        if_true]
      cases i with
      | zero =>
        simp [context.excess]
      | succ k =>
        have ih2 := ih1 k (by omega) (by omega)
        rw [hu] at ih2
        simp only [Option.map_eq_some', Nat.add_right_cancel_iff, exists_eq_right,
          List.take_succ_cons, context.excess, List.length_cons, Nat.add_lt_add_iff_right]
        rw [ih2]
        constructor
        · rintro ⟨hk, he, hj⟩
          refine ⟨hk, by omega, ?_⟩
          intro j hjlt
          cases j with
          | zero => simp [context.excess]
          | succ j2 =>
            have := hj j2 (by omega)
            try simp only [List.take_succ_cons, context.excess]
            omega
        · rintro ⟨hk, he, hj⟩
          refine ⟨hk, by omega, ?_⟩
          intro j hjlt
          have := hj (j + 1) (by omega)
          try simp only [List.take_succ_cons, context.excess] at this
          omega
    | release =>
      have hu := release_use_count ctx h0 (by omega)
      have hd := release_destructor_runs ctx h0 (by omega)
      by_cases h1 : ctx.use_count_ = 1
      · have hne : ¬ (context.intrusive_ptr_release ctx).destructor_runs =
            ctx.destructor_runs := by
          rw [hd]; simp [h1]
        simp only [context.destroyed_at, context.ref_call.apply, hne, if_false]
        cases i with
        | zero => simp [context.excess, h1]
        | succ k =>
          simp only [Option.some.injEq, List.length_cons]
          constructor
          · intro h; omega
          · rintro ⟨_, _, hj⟩
            have := hj 0 (by omega)
            simp [context.excess, h1] at this
      · have heq : (context.intrusive_ptr_release ctx).destructor_runs =
            ctx.destructor_runs := by
          rw [hd]; simp [h1]
        have ih1 := ih (context.intrusive_ptr_release ctx)
        simp only [context.destroyed_at, context.ref_call.apply, heq, if_true]
        cases i with
        | zero =>
          simp [context.excess]; omega
        | succ k =>
          have ih2 := ih1 k (by omega) (by omega)
          rw [hu] at ih2
          simp only [Option.map_eq_some', Nat.add_right_cancel_iff, exists_eq_right,
            List.take_succ_cons, context.excess, List.length_cons, Nat.add_lt_add_iff_right]
          rw [ih2]
          constructor
          · rintro ⟨hk, he, hj⟩
            refine ⟨hk, by omega, ?_⟩
            intro j hjlt
            cases j with
            | zero => simp [context.excess]; omega
            | succ j2 =>
              have := hj j2 (by omega)
              try simp only [List.take_succ_cons, context.excess]
              omega
          · rintro ⟨hk, he, hj⟩
            refine ⟨hk, by omega, ?_⟩
            intro j hjlt
            have := hj (j + 1) (by omega)
            try simp only [List.take_succ_cons, context.excess] at this
            omega

/-- C16: a worker context starts with `use_count_` 1; `intrusive_ptr_add_ref` adds
exactly 1 and runs no destructor; `intrusive_ptr_release` subtracts exactly 1 and runs
the destructor exactly when the count before the call was 1; and in a sequence of
calls on a context with a positive count the destructor runs at call `i` exactly when
`i` is the first call at which the releases exceed the add_refs by the initial count
(counts within the range of `std::size_t`). -/
theorem use_count_spec (ctx : context) (calls : List context.ref_call) (i : Nat)
    (hpos : 0 < ctx.use_count_)
    (hrange : ctx.use_count_ + calls.length + 1 < size_t_range) :
    context.worker.use_count_ = 1
    ∧ ((context.intrusive_ptr_add_ref ctx).use_count_ = ctx.use_count_ + 1
      ∧ (context.intrusive_ptr_add_ref ctx).destructor_runs = ctx.destructor_runs)
    ∧ ((context.intrusive_ptr_release ctx).use_count_ + 1 = ctx.use_count_
      ∧ (context.intrusive_ptr_release ctx).destructor_runs =
          ctx.destructor_runs + (if ctx.use_count_ = 1 then 1 else 0)
      ∧ ((context.intrusive_ptr_release ctx).use_count_ = 0 ↔ ctx.use_count_ = 1))
    ∧ (context.destroyed_at calls ctx = some i ↔
        i < calls.length ∧ context.excess (calls.take (i + 1)) = ctx.use_count_ ∧
          ∀ j < i, context.excess (calls.take (j + 1)) ≠ ctx.use_count_) := by
  have hu := release_use_count ctx hpos (by omega)
  refine ⟨rfl, ⟨add_ref_use_count ctx (by omega), rfl⟩, ⟨by omega, ?_, by omega⟩, ?_⟩
  · exact release_destructor_runs ctx hpos (by omega)
  · exact destroyed_at_iff calls ctx i hpos (by omega)

/-- C16, witness: a fresh worker context, one extra reference taken and two given
back: the second release, call number 2, runs the destructor. -/
theorem use_count_spec_witness :
    (0 < context.worker.use_count_
      ∧ context.worker.use_count_ +
          [context.ref_call.add_ref, context.ref_call.release,
            context.ref_call.release].length + 1 < size_t_range)
    ∧ context.destroyed_at
        [context.ref_call.add_ref, context.ref_call.release, context.ref_call.release]
        context.worker = some 2
    ∧ (context.intrusive_ptr_release context.worker).destructor_runs = 1 :=
  ⟨⟨by decide, by decide⟩, rfl,
    (use_count_spec context.worker
      [context.ref_call.add_ref, context.ref_call.release, context.ref_call.release] 2
      (by decide) (by decide)).2.2.1.2.1⟩

/-! ## Placement of the control block -/

/-- The value of the `std::align` branch on a stack that has room for the control
block and its alignment padding. -/
theorem place_control_block_eq (func_size T S : Nat) (hS : func_size + 64 ≤ S)
    (hT : S ≤ T) (hrange : T < size_t_range) :
    place_control_block func_size T S =
      some ((T - func_size - 1) / 64 * 64, S - (T - (T - func_size - 1) / 64 * 64)) := by
  rw [size_t_range_eq] at hrange
  have h1 : ¬ func_size + 64 < func_size := by omega
  have h2 : ¬ (T - func_size - 64 + 64 - 1) / 64 * 64 - (T - func_size - 64) >
      func_size + 64 - func_size := by omega
  have h3 : (T - func_size - 64 + 64 - 1) / 64 * 64 = (T - func_size - 1) / 64 * 64 := by
    omega
  simp only [place_control_block, std_align, h1, h2, if_false, size_t_range_eq]
  rw [h3]
  congr 2
  omega

/-- C17: on a stack with top `T` and size `S ≥ sizeof( context) + 64`, in
`make_worker_context` and in `make_dispatcher_context` alike, `std::align` does not
return null; the address `sp` it gives is a multiple of 64 with
`T - sizeof( context) - 64 ≤ sp ≤ T - sizeof( context)`, the control block lies inside
the stack, and the size passed on is `S - (T - sp)`, which is less than `S` by at least
`sizeof( context)` and at most `sizeof( context) + 64`. -/
theorem control_block_placement (func_size T S : Nat)
    (hS : func_size + 64 ≤ S) (hT : S ≤ T) (hrange : T < size_t_range) :
    (make_worker_context func_size T S).isSome = true
    ∧ make_dispatcher_context func_size T S = make_worker_context func_size T S
    ∧ ∀ sp size : Nat, make_worker_context func_size T S = some (sp, size) →
        sp % 64 = 0
        ∧ T - func_size - 64 ≤ sp ∧ sp ≤ T - func_size
        ∧ T - S ≤ sp ∧ sp + func_size ≤ T
        ∧ size = S - (T - sp)
        ∧ func_size ≤ S - size ∧ S - size ≤ func_size + 64 := by
  have heq := place_control_block_eq func_size T S hS hT hrange
  simp only [make_worker_context, make_dispatcher_context]
  rw [heq]
  refine ⟨rfl, trivial, ?_⟩
  intro sp size hplace
  simp only [Option.some.injEq, Prod.mk.injEq] at hplace
  obtain ⟨hsp, hsize⟩ := hplace
  subst hsp hsize
  refine ⟨?_, ?_, ?_, ?_, ?_, ?_, ?_, ?_⟩
  all_goals omega

/-- C17, witness: a stack of 4096 bytes that ends at 8192, with a control block of
200 bytes: the block is placed at 7936 and 3840 bytes are passed on. -/
theorem control_block_placement_witness :
    (200 + 64 ≤ 4096 ∧ 4096 ≤ 8192 ∧ 8192 < size_t_range
      ∧ make_worker_context 200 8192 4096 = some (7936, 3840))
    ∧ (make_worker_context 200 8192 4096).isSome = true
    ∧ 7936 % 64 = 0
    ∧ 3840 = 4096 - (8192 - 7936) :=
  ⟨⟨by decide, by decide, by decide, by rfl⟩,
    (control_block_placement 200 8192 4096 (by decide) (by decide) (by decide)).1,
    ((control_block_placement 200 8192 4096 (by decide) (by decide) (by decide)).2.2
      7936 3840 (by rfl)).1,
    ((control_block_placement 200 8192 4096 (by decide) (by decide) (by decide)).2.2
      7936 3840 (by rfl)).2.2.2.2.2.1⟩

/-! ## The flag setters -/

/-- The statement `flags_ |= mask` or `flags_ &= ~mask` of a setter, on the value. -/
theorem set_or_clear_bit (f k : Nat) (b : Bool) (j : Nat) (hf : f < 2 ^ 32) (hk : k < 32) :
    (if b then f ||| 2 ^ k else f &&& bit_not (2 ^ k)).testBit j =
      if j = k then b else f.testBit j := by
  have hpow : 2 ^ k < 2 ^ 32 := Nat.pow_lt_pow_right (by decide) hk
  have hnot : bit_not (2 ^ k) = 2 ^ 32 - (2 ^ k + 1) := by
    simp only [bit_not, Nat.mod_eq_of_lt hpow]
    omega
  cases b with
  | true =>
    simp only [if_true, Nat.testBit_or, Nat.testBit_two_pow]
    by_cases hj : j = k
    · subst hj; simp
    · have hkj : ¬ k = j := fun h => hj h.symm
      simp [hj, hkj]
  | false =>
    simp only [Bool.false_eq_true, if_false, Nat.testBit_and, hnot,
      Nat.testBit_two_pow_sub_succ hpow, Nat.testBit_two_pow]
    by_cases hj : j = k
    · subst hj; simp
    · have hkj : ¬ k = j := fun h => hj h.symm
      by_cases hj32 : j < 32
      · simp [hj, hkj, hj32]
      · have hfj : f.testBit j = false :=
          Nat.testBit_lt_two_pow (lt_of_lt_of_le hf (Nat.pow_le_pow_right (by decide) (by omega)))
        simp [hj, hfj]

/-- Applying the statement of a setter a second time changes nothing. -/
theorem set_or_clear_twice (f mask : Nat) (b : Bool) :
    (if b then (if b then f ||| mask else f &&& bit_not mask) ||| mask
      else (if b then f ||| mask else f &&& bit_not mask) &&& bit_not mask) =
      (if b then f ||| mask else f &&& bit_not mask) := by
  cases b with
  | true => simp [Nat.lor_assoc]
  | false => simp [Nat.land_assoc]

theorem request_interruption_flags (this : Nat) (b : Bool) (m : fiber_manager) :
    ((worker_fiber.request_interruption this b m).fibers this).flags_ =
      if b then (m.fibers this).flags_ ||| flag_interruption_requested
      else (m.fibers this).flags_ &&& bit_not flag_interruption_requested := by
  cases b <;> simp [worker_fiber.request_interruption, worker_fiber.set_ready]

theorem interruption_blocked_flags (this : Nat) (b : Bool) (m : fiber_manager) :
    ((worker_fiber.interruption_blocked this b m).fibers this).flags_ =
      if b then (m.fibers this).flags_ ||| flag_interruption_blocked
      else (m.fibers this).flags_ &&& bit_not flag_interruption_blocked := by
  cases b <;> simp [worker_fiber.interruption_blocked]

theorem thread_affinity_flags (mask this : Nat) (b : Bool) (m : fiber_manager) :
    ((worker_fiber.thread_affinity mask this b m).fibers this).flags_ =
      if b then (m.fibers this).flags_ ||| mask
      else (m.fibers this).flags_ &&& bit_not mask := by
  cases b <;> simp [worker_fiber.thread_affinity]

theorem flag_interruption_requested_eq : flag_interruption_requested = 2 ^ 6 := by
  decide

theorem flag_interruption_blocked_eq : flag_interruption_blocked = 2 ^ 5 := by
  decide

/-- C14: on a `flags_` value of an `int`, `request_interruption( b)` leaves bit 6
(`interruption_requested`) equal to `b` and every other bit as it was;
`interruption_blocked( b)` does the same with bit 5 and `thread_affinity( b)` with the
bit `k` of its flag; applying a setter twice gives the flags of applying it once. -/
theorem flag_setters_own_bit (this : Nat) (b : Bool) (m : fiber_manager) (k j : Nat)
    (hf : (m.fibers this).flags_ < 2 ^ 32) (hk : k < 32) :
    (((worker_fiber.request_interruption this b m).fibers this).flags_.testBit j =
        (if j = 6 then b else (m.fibers this).flags_.testBit j)
      ∧ ((worker_fiber.request_interruption this b m).fibers this).interruption_requested = b
      ∧ ((worker_fiber.request_interruption this b
            (worker_fiber.request_interruption this b m)).fibers this).flags_ =
          ((worker_fiber.request_interruption this b m).fibers this).flags_)
    ∧ (((worker_fiber.interruption_blocked this b m).fibers this).flags_.testBit j =
        (if j = 5 then b else (m.fibers this).flags_.testBit j)
      ∧ ((worker_fiber.interruption_blocked this b m).fibers this).interruption_blocked_get = b
      ∧ ((worker_fiber.interruption_blocked this b
            (worker_fiber.interruption_blocked this b m)).fibers this).flags_ =
          ((worker_fiber.interruption_blocked this b m).fibers this).flags_)
    ∧ (((worker_fiber.thread_affinity (2 ^ k) this b m).fibers this).flags_.testBit j =
        (if j = k then b else (m.fibers this).flags_.testBit j)
      ∧ ((worker_fiber.thread_affinity (2 ^ k) this b
            (worker_fiber.thread_affinity (2 ^ k) this b m)).fibers this).flags_ =
          ((worker_fiber.thread_affinity (2 ^ k) this b m).fibers this).flags_) := by
  have getter : ∀ (g i : Nat), decide (g &&& 2 ^ i ≠ 0) = g.testBit i := by
    intro g i
    rw [Nat.and_two_pow]
    cases g.testBit i <;> simp
  refine ⟨⟨?_, ?_, ?_⟩, ⟨?_, ?_, ?_⟩, ⟨?_, ?_⟩⟩
  · rw [request_interruption_flags, flag_interruption_requested_eq]
    exact set_or_clear_bit _ 6 b j hf (by decide)
  · unfold worker_fiber.interruption_requested
    rw [request_interruption_flags, flag_interruption_requested_eq, getter,
      set_or_clear_bit _ 6 b 6 hf (by decide)]
    simp
  · rw [request_interruption_flags, request_interruption_flags]
    exact set_or_clear_twice _ _ b
  · rw [interruption_blocked_flags, flag_interruption_blocked_eq]
    exact set_or_clear_bit _ 5 b j hf (by decide)
  · unfold worker_fiber.interruption_blocked_get
    rw [interruption_blocked_flags, flag_interruption_blocked_eq, getter,
      set_or_clear_bit _ 5 b 5 hf (by decide)]
    simp
  · rw [interruption_blocked_flags, interruption_blocked_flags]
    exact set_or_clear_twice _ _ b
  · rw [thread_affinity_flags]
    exact set_or_clear_bit _ k b j hf hk
  · rw [thread_affinity_flags, thread_affinity_flags]
    exact set_or_clear_twice _ _ b

/-- C14, witness: the fiber at 1 with only `interruption_blocked` set; requesting an
interruption gives the flags 96, and bit 5 is still set. -/
theorem flag_setters_own_bit_witness :
    (((manager0 true).fibers 1).flags_ < 2 ^ 32 ∧ 2 < 32)
    ∧ ((worker_fiber.request_interruption 1 true (manager0 true)).fibers 1).flags_ = 96
    ∧ ((worker_fiber.request_interruption 1 true (manager0 true)).fibers 1).flags_.testBit 5 =
        (if 5 = 6 then true else ((manager0 true).fibers 1).flags_.testBit 5) :=
  ⟨⟨by decide, by decide⟩, rfl,
    (flag_setters_own_bit 1 true (manager0 true) 2 5 (by decide) (by decide)).1.1⟩

/-! ## fiber_manager::resume_ -/

theorem resume_self (m : fiber_manager) :
    fiber_manager.resume_ m.active_fiber_ m = worker_fiber.set_running m.active_fiber_ m := by
  unfold fiber_manager.resume_
  exact if_pos rfl

theorem resume_other (f : Nat) (m : fiber_manager) (h : f ≠ m.active_fiber_) :
    fiber_manager.resume_ f m =
      emit (event.resume f)
        (if (m.fibers m.active_fiber_).is_terminated then
          { worker_fiber.set_running f m with
            active_fiber_ := f, tqueue_ := m.tqueue_ ++ [m.active_fiber_] }
        else { worker_fiber.set_running f m with active_fiber_ := f }) := by
  have h1 : (worker_fiber.set_running f m).fibers m.active_fiber_ = m.fibers m.active_fiber_ := by
    simp [worker_fiber.set_running, Ne.symm h]
  have h2 : fiber_manager.resume_ f m =
      emit (event.resume f)
        (if ((worker_fiber.set_running f m).fibers m.active_fiber_).is_terminated then
          { worker_fiber.set_running f m with
            active_fiber_ := f, tqueue_ := m.tqueue_ ++ [m.active_fiber_] }
        else { worker_fiber.set_running f m with active_fiber_ := f }) := by
    unfold fiber_manager.resume_
    exact if_neg h
  rw [h2, h1]

/-- The scheduler pass over the wait queue touches neither the terminated queue nor
the active fiber. -/
theorem wqueue_move_to_frame (m : fiber_manager) :
    (fiber_manager.wqueue_move_to m).tqueue_ = m.tqueue_
    ∧ (fiber_manager.wqueue_move_to m).active_fiber_ = m.active_fiber_ := by
  unfold fiber_manager.wqueue_move_to
  generalize m.wqueue_ = l
  induction l generalizing m with
  | nil => exact ⟨rfl, rfl⟩
  | cons p l ih =>
    rw [List.foldl_cons]
    split
    · exact ih _
    · exact ih _

/-- The fiber objects after `resume_`: the state of `f`, and nothing else. -/
theorem resume_fibers (f : Nat) (m : fiber_manager) (q : Nat) :
    (fiber_manager.resume_ f m).fibers q =
      if q = f then { m.fibers f with state_ := state_t.RUNNING } else m.fibers q := by
  by_cases h : f = m.active_fiber_
  · subst h
    rw [resume_self]
    simp [worker_fiber.set_running]
  · rw [resume_other f m h]
    by_cases ht : (m.fibers m.active_fiber_).is_terminated = true
    · simp only [ht, if_true, emit_fibers]
      simp [worker_fiber.set_running]
    · simp only [ht, if_false, emit_fibers]
      simp [worker_fiber.set_running]

/-- The active fiber after `resume_`. -/
theorem resume_active (f : Nat) (m : fiber_manager) :
    (fiber_manager.resume_ f m).active_fiber_ = f := by
  by_cases h : f = m.active_fiber_
  · subst h
    rw [resume_self]
    rfl
  · rw [resume_other f m h]
    split <;> rfl

/-- The terminated queue after `resume_`. -/
theorem resume_tqueue (f : Nat) (m : fiber_manager) :
    (fiber_manager.resume_ f m).tqueue_ =
      m.tqueue_ ++
        (if f = m.active_fiber_ then []
          else if (m.fibers m.active_fiber_).is_terminated then [m.active_fiber_] else []) := by
  by_cases h : f = m.active_fiber_
  · subst h
    rw [resume_self]
    simp [worker_fiber.set_running, update_fiber]
  · rw [resume_other f m h]
    by_cases ht : (m.fibers m.active_fiber_).is_terminated = true
    · simp only [ht, if_true, h, if_false]
      rfl
    · simp only [ht, if_false, h]
      simp [emit, worker_fiber.set_running, update_fiber]

/-- The two views of `run` agree where both apply: when the caller itself is the one
ready fiber (a `yield` with nobody else to run), the state in which `run` returns to
the caller is the state after one turn of the loop. -/
theorem run_eq_run_turn (m : fiber_manager)
    (h : (fiber_manager.wqueue_move_to m).rqueue = [m.active_fiber_]) :
    fiber_manager.run [] m = some (fiber_manager.run_turn m).1 := by
  unfold fiber_manager.run fiber_manager.run_turn
  simp only [List.foldl_nil, h, List.mem_singleton, if_true, fiber_manager.sched_pick_next,
    fiber_manager.tqueue_clear, List.erase_cons_head]

/-- A wait with predicate returns at once, without a wake-up, when the flag is set. -/
theorem cnd_wait_set (wakes : List wake) :
    cnd_wait true wakes = some true ∧ cnd_wait_until true wakes = some true := by
  cases wakes <;> exact ⟨rfl, rfl⟩

/-- C19: for an instance constructed with `suspend = true`, `notify()` sets `flag_`;
whenever `suspend_until( tp)` returns, on the untimed and on the timed branch, `flag_`
is false; with `flag_` set on entry it returns without any wake-up, with `flag_`
cleared, so a `notify()` before the park is not lost.  For an instance constructed
with `suspend = false`, `suspend_until` and `notify` return at once and leave the
instance as it is. -/
theorem park_wake_flag (s : random_chase_lev) (tp : Nat) (wakes : List wake) :
    (s.suspend_ = true →
      (random_chase_lev.notify s).flag_ = true
      ∧ (random_chase_lev.suspend_until tp wakes s).map (fun r => r.flag_) =
          (random_chase_lev.suspend_until tp wakes s).map (fun _ => false)
      ∧ (s.flag_ = true →
          random_chase_lev.suspend_until tp [] s = some { s with flag_ := false })
      ∧ random_chase_lev.suspend_until tp [] (random_chase_lev.notify s) =
          some { s with flag_ := false })
    ∧ (s.suspend_ = false →
      random_chase_lev.suspend_until tp wakes s = some s
      ∧ random_chase_lev.notify s = s) := by
  refine ⟨fun hs => ⟨?_, ?_, ?_, ?_⟩, fun hs => ⟨?_, ?_⟩⟩
  · simp [random_chase_lev.notify, hs]
  · unfold random_chase_lev.suspend_until
    rw [if_pos hs]
    by_cases ht : time_point_max = tp
    · rw [if_pos ht]
      cases cnd_wait s.flag_ wakes <;> rfl
    · rw [if_neg ht]
      cases cnd_wait_until s.flag_ wakes <;> rfl
  · intro hf
    unfold random_chase_lev.suspend_until
    rw [if_pos hs, hf, (cnd_wait_set []).1, (cnd_wait_set []).2]
    by_cases ht : time_point_max = tp
    · rw [if_pos ht]
    · rw [if_neg ht]
  · have hn : random_chase_lev.notify s = { s with flag_ := true } := by
      simp [random_chase_lev.notify, hs]
    rw [hn]
    unfold random_chase_lev.suspend_until
    simp only [hs, if_true, (cnd_wait_set []).1, (cnd_wait_set []).2]
    by_cases ht : time_point_max = tp
    · rw [if_pos ht]
    · rw [if_neg ht]
  · simp [random_chase_lev.suspend_until, hs]
  · simp [random_chase_lev.notify, hs]

/-- C19, witness: a parking instance whose flag is already set, and an instance that
does not park. -/
theorem park_wake_flag_witness :
    ((({ idx_ := 0, suspend_ := true, flag_ := true } : random_chase_lev).suspend_ = true
        ∧ ({ idx_ := 0, suspend_ := true, flag_ := true } : random_chase_lev).flag_ = true)
      ∧ random_chase_lev.suspend_until 5 [] { idx_ := 0, suspend_ := true, flag_ := true } =
          some { idx_ := 0, suspend_ := true, flag_ := false })
    ∧ (({ idx_ := 1, suspend_ := false, flag_ := true } : random_chase_lev).suspend_ = false
      ∧ random_chase_lev.suspend_until time_point_max [wake.spurious]
          { idx_ := 1, suspend_ := false, flag_ := true } =
          some { idx_ := 1, suspend_ := false, flag_ := true }) :=
  ⟨⟨⟨rfl, rfl⟩,
      ((park_wake_flag { idx_ := 0, suspend_ := true, flag_ := true } 5 []).1 rfl).2.2.1 rfl⟩,
   ⟨rfl,
      ((park_wake_flag { idx_ := 1, suspend_ := false, flag_ := true } time_point_max
        [wake.spurious]).2 rfl).1⟩⟩

/-! ## random_chase_lev: the ready queues -/

theorem set_same {α : Type} (l : List α) (i : Nat) (a : α) (h : l[i]? = some a) :
    l.set i a = l := by
  apply List.ext_getElem?
  intro j
  rw [List.getElem?_set]
  split
  · split
    · subst_vars; exact h.symm
    · subst_vars
      rcases List.getElem?_eq_some_iff.mp h with ⟨hi, _⟩
      contradiction
  · rfl

theorem put_scheduler_same (i : Nat) (s : random_chase_lev) (w : algo_state)
    (h : w.schedulers_[i]? = some s) : put_scheduler i s w = w := by
  simp only [put_scheduler, set_same _ _ _ h]

theorem put_scheduler_get (i : Nat) (s t : random_chase_lev) (w : algo_state)
    (h : w.schedulers_[i]? = some s) : (put_scheduler i t w).schedulers_[i]? = some t := by
  rcases List.getElem?_eq_some_iff.mp h with ⟨hi, _⟩
  simp [put_scheduler, List.getElem?_set, hi]

theorem attach_scheduler_ (active ctx : Nat) (w : algo_state) :
    ((random_chase_lev.attach active ctx w).contexts ctx).scheduler_ =
      (w.contexts active).scheduler_ := by
  simp [random_chase_lev.attach, update_context]

theorem pick_index_replicate (k n i : Nat) (rest : List Nat) (hi : i ≠ k) :
    random_chase_lev.pick_index k (List.replicate n k ++ i :: rest) = some i := by
  induction n with
  | zero => simp [random_chase_lev.pick_index, hi]
  | succ n ih => simp [List.replicate_succ, random_chase_lev.pick_index, ih]

theorem pick_index_all_own (k : Nat) (draws : List Nat) (h : ∀ d ∈ draws, d = k) :
    random_chase_lev.pick_index k draws = none := by
  induction draws with
  | nil => rfl
  | cons d rest ih =>
    have hd : d = k := h d (List.mem_cons_self _ _)
    have hrest : ∀ e ∈ rest, e = k := fun e he => h e (List.mem_cons_of_mem _ he)
    simp [random_chase_lev.pick_index, hd, ih hrest]

/-- The first branch of `pick_next`: `rqueue_.pop()` gives a context. -/
theorem pick_next_pop (self active : Nat) (draws : List Nat) (w : algo_state)
    (s : random_chase_lev) (q : List Nat) (c : Nat)
    (hs : w.schedulers_[self]? = some s) (hq : s.rqueue_ = q ++ [c]) :
    random_chase_lev.pick_next self active draws w =
      some (some c,
        random_chase_lev.attach active c (put_scheduler self { s with rqueue_ := q } w)) := by
  have hp : random_chase_lev.rqueue_pop (q ++ [c]) = (some c, q) := by
    simp [random_chase_lev.rqueue_pop]
  unfold random_chase_lev.pick_next
  simp only [hs, hq, hp]

/-- The second branch of `pick_next`: nothing to pop, `lqueue_` is not empty. -/
theorem pick_next_local (self active : Nat) (draws : List Nat) (w : algo_state)
    (s : random_chase_lev) (c : Nat) (rest : List Nat)
    (hs : w.schedulers_[self]? = some s) (hq : s.rqueue_ = []) (hl : s.lqueue_ = c :: rest) :
    random_chase_lev.pick_next self active draws w =
      some (some c, put_scheduler self { s with lqueue_ := rest } w) := by
  unfold random_chase_lev.pick_next
  simp only [hs, random_chase_lev.rqueue_pop, hq, hl, List.getLast?_nil, List.dropLast_nil]

/-- The third branch of `pick_next`: both queues are empty and the loop has found the
index `i` of a peer. -/
theorem pick_next_steal (self active : Nat) (draws : List Nat) (w : algo_state)
    (s other : random_chase_lev) (i : Nat)
    (hs : w.schedulers_[self]? = some s) (hq : s.rqueue_ = []) (hl : s.lqueue_ = [])
    (hidx : random_chase_lev.pick_index s.idx_ draws = some i)
    (ho : w.schedulers_[i]? = some other) :
    random_chase_lev.pick_next self active draws w =
      match random_chase_lev.rqueue_steal other.rqueue_ with
      | (some ctx, r) =>
        some (some ctx,
          random_chase_lev.attach active ctx (put_scheduler i { other with rqueue_ := r } w))
      | (none, _) => some (none, w) := by
  have hs_eq : ({ s with rqueue_ := [], lqueue_ := [] } : random_chase_lev) = s := by
    cases s; simp_all
  have hself : put_scheduler self { s with rqueue_ := [], lqueue_ := [] } w = w := by
    rw [hs_eq]
    exact put_scheduler_same self s w hs
  unfold random_chase_lev.pick_next
  simp only [hs, random_chase_lev.rqueue_pop, hq, hl, List.getLast?_nil, List.dropLast_nil,
    hidx, hself, ho]
  cases hoq : other.rqueue_ with
  | nil =>
    have ho_eq : ({ other with rqueue_ := [] } : random_chase_lev) = other := by
      cases other; simp_all
    simp only [random_chase_lev.rqueue_steal, ho_eq, put_scheduler_same i other w ho]
  | cons ctx r => simp only [random_chase_lev.rqueue_steal]

/-- C11: `pick_next()` takes the context that `rqueue_.pop()` gives, attaches it to
the scheduler of the caller and leaves `lqueue_` alone; with nothing to pop it takes
the front of `lqueue_`, leaving the rest of the list in order and the peers and the
contexts untouched; with both queues empty it returns what `steal()` of the peer at
the first drawn index different from `idx_` gives, attached to the scheduler of the
caller when it is a context, null when the peer has nothing to steal. -/
theorem pick_next_selection_order (self active : Nat) (draws : List Nat) (w : algo_state)
    (s other : random_chase_lev) (q rest tail : List Nat) (c i n : Nat)
    (hs : w.schedulers_[self]? = some s) :
    (s.rqueue_ = q ++ [c] →
      (random_chase_lev.pick_next self active draws w).map Prod.fst = some (some c)
      ∧ (random_chase_lev.pick_next self active draws w).map
          (fun r => r.2.schedulers_[self]?) = some (some { s with rqueue_ := q })
      ∧ (random_chase_lev.pick_next self active draws w).map
          (fun r => (r.2.contexts c).scheduler_) = some (w.contexts active).scheduler_)
    ∧ (s.rqueue_ = [] → s.lqueue_ = c :: rest →
      random_chase_lev.pick_next self active draws w =
        some (some c, put_scheduler self { s with lqueue_ := rest } w))
    ∧ (s.rqueue_ = [] → s.lqueue_ = [] → draws = List.replicate n s.idx_ ++ i :: tail →
      i ≠ s.idx_ → w.schedulers_[i]? = some other →
      (random_chase_lev.pick_next self active draws w).map Prod.fst =
          some (random_chase_lev.rqueue_steal other.rqueue_).1
      ∧ ∀ c2 : Nat, (random_chase_lev.rqueue_steal other.rqueue_).1 = some c2 →
          (random_chase_lev.pick_next self active draws w).map
            (fun r => (r.2.contexts c2).scheduler_) = some (w.contexts active).scheduler_) := by
  refine ⟨fun hq => ?_, fun hq hl => ?_, fun hq hl hd hi ho => ?_⟩
  · rw [pick_next_pop self active draws w s q c hs hq]
    refine ⟨rfl, ?_, ?_⟩
    · simp only [Option.map_some', random_chase_lev.attach, update_context]
      rw [put_scheduler_get self s _ w hs]
    · simp only [Option.map_some', attach_scheduler_]
      rfl
  · exact pick_next_local self active draws w s c rest hs hq hl
  · have hidx : random_chase_lev.pick_index s.idx_ draws = some i := by
      rw [hd]; exact pick_index_replicate s.idx_ n i tail hi
    rw [pick_next_steal self active draws w s other i hs hq hl hidx ho]
    cases hoq : other.rqueue_ with
    | nil => simp [random_chase_lev.rqueue_steal]
    | cons ctx r =>
      simp only [random_chase_lev.rqueue_steal, Option.map_some', Option.some.injEq, true_and]
      intro c2 hc2
      subst hc2
      rw [attach_scheduler_]
      rfl

/-- C11, witness: instance 0 of a registry of two with something to pop, with only a
pinned context, and with empty queues next to a peer that holds the workers 6 and 8
(the draws are 0, 0, 1). -/
theorem pick_next_selection_order_witness :
    ((registry_both.schedulers_[0]? =
          some { idx_ := 0, suspend_ := true, rqueue_ := [4], lqueue_ := [3] }
        ∧ ([4] : List Nat) = [] ++ [4])
      ∧ (random_chase_lev.pick_next 0 1 [] registry_both).map Prod.fst = some (some 4))
    ∧ ((registry_local.schedulers_[0]? =
          some { idx_ := 0, suspend_ := true, rqueue_ := [], lqueue_ := [3] })
      ∧ (random_chase_lev.pick_next 0 1 [] registry_local).map Prod.fst = some (some 3))
    ∧ ((registry_remote.schedulers_[0]? = some { idx_ := 0, suspend_ := true }
        ∧ registry_remote.schedulers_[1]? =
          some { idx_ := 1, suspend_ := true, rqueue_ := [6, 8] }
        ∧ ([0, 0, 1] : List Nat) = List.replicate 2 0 ++ 1 :: [] ∧ (1 : Nat) ≠ 0)
      ∧ (random_chase_lev.pick_next 0 1 [0, 0, 1] registry_remote).map Prod.fst =
          some (some 6)) :=
  ⟨⟨⟨rfl, rfl⟩,
      ((pick_next_selection_order 0 1 [] registry_both
        { idx_ := 0, suspend_ := true, rqueue_ := [4], lqueue_ := [3] }
        { idx_ := 0, suspend_ := true } [] [] [] 4 0 0 rfl).1 rfl).1⟩,
   ⟨rfl,
      congrArg (Option.map Prod.fst)
        ((pick_next_selection_order 0 1 [] registry_local
          { idx_ := 0, suspend_ := true, rqueue_ := [], lqueue_ := [3] }
          { idx_ := 0, suspend_ := true } [] [] [] 3 0 0 rfl).2.1 rfl rfl)⟩,
   ⟨⟨rfl, rfl, rfl, by decide⟩,
      ((pick_next_selection_order 0 1 [0, 0, 1] registry_remote
        { idx_ := 0, suspend_ := true }
        { idx_ := 1, suspend_ := true, rqueue_ := [6, 8] } [] [] [] 0 1 2 rfl).2.2
          rfl rfl rfl (by decide) rfl).1⟩⟩

/-- C12, failing input: the calling instance is the only one in the registry and its
queues are empty.  The distribution ranges over `0 .. schedulers_.size() - 1`, which is
only the index 0 of the caller itself, so every output repeats the loop
`while ( idx == idx_)`: whatever sequence of outputs in range is supplied, `pick_next`
has not returned when the sequence ends. -/
theorem pick_next_single_instance_spins (active : Nat) (draws : List Nat)
    (hrange : ∀ d ∈ draws, d ≤ registry1.schedulers_.length - 1) :
    registry1.schedulers_ = [{ idx_ := 0, suspend_ := true }]
    ∧ random_chase_lev.pick_next 0 active draws registry1 = none := by
  refine ⟨rfl, ?_⟩
  have hall : ∀ d ∈ draws, d = 0 := by
    intro d hd
    have h := hrange d hd
    have hlen : registry1.schedulers_.length = 1 := rfl
    rw [hlen] at h
    omega
  have hidx := pick_index_all_own 0 draws hall
  have hs : registry1.schedulers_[0]? = some { idx_ := 0, suspend_ := true } := rfl
  unfold random_chase_lev.pick_next
  simp only [hs, random_chase_lev.rqueue_pop, List.getLast?_nil, List.dropLast_nil, hidx]

/-- C12, witness: three outputs of the distribution, all in range, and the loop is
still running. -/
theorem pick_next_single_instance_spins_witness :
    (∀ d ∈ ([0, 0, 0] : List Nat), d ≤ registry1.schedulers_.length - 1)
    ∧ random_chase_lev.pick_next 0 1 [0, 0, 0] registry1 = none :=
  ⟨by decide, (pick_next_single_instance_spins 1 [0, 0, 0] (by decide)).2⟩

/-! ## random_chase_lev::awakened -/

theorem awakened_pinned (self ctx : Nat) (w : algo_state) (s : random_chase_lev)
    (hs : w.schedulers_[self]? = some s) (hp : (w.contexts ctx).pinned = true) :
    random_chase_lev.awakened self ctx w =
      put_scheduler self { s with lqueue_ := s.lqueue_ ++ [ctx] } w := by
  simp [random_chase_lev.awakened, hs, hp]

theorem awakened_worker (self ctx : Nat) (w : algo_state) (s : random_chase_lev)
    (hs : w.schedulers_[self]? = some s) (hp : (w.contexts ctx).pinned = false) :
    random_chase_lev.awakened self ctx w =
      put_scheduler self { s with rqueue_ := s.rqueue_ ++ [ctx] }
        (random_chase_lev.detach ctx w) := by
  simp [random_chase_lev.awakened, hs, hp, random_chase_lev.rqueue_push]

theorem detach_pinned (ctx c : Nat) (w : algo_state) :
    ((random_chase_lev.detach ctx w).contexts c).pinned = (w.contexts c).pinned := by
  by_cases h : c = ctx
  · subst h; simp [random_chase_lev.detach, update_context]
  · simp [random_chase_lev.detach, update_context, Function.update, h]

/-- The instance after `awakened`, and the kind of every context, in both cases. -/
theorem awakened_instance (self ctx : Nat) (w : algo_state) (s : random_chase_lev)
    (hs : w.schedulers_[self]? = some s) :
    (random_chase_lev.awakened self ctx w).schedulers_[self]? =
        some (if (w.contexts ctx).pinned then { s with lqueue_ := s.lqueue_ ++ [ctx] }
          else { s with rqueue_ := s.rqueue_ ++ [ctx] })
    ∧ ∀ c : Nat, ((random_chase_lev.awakened self ctx w).contexts c).pinned =
        (w.contexts c).pinned := by
  by_cases hp : (w.contexts ctx).pinned = true
  · rw [awakened_pinned self ctx w s hs hp]
    refine ⟨?_, fun c => rfl⟩
    rw [put_scheduler_get self s _ w hs]
    simp [hp]
  · have hp2 : (w.contexts ctx).pinned = false := by simpa using hp
    rw [awakened_worker self ctx w s hs hp2]
    refine ⟨?_, fun c => detach_pinned ctx c w⟩
    rw [put_scheduler_get self s _ (random_chase_lev.detach ctx w) hs]
    simp [hp2]

/-- The queues stay sorted by kind under `awakened`. -/
theorem awakened_keeps_kinds (self ctx : Nat) (w : algo_state) (s s2 : random_chase_lev)
    (hs : w.schedulers_[self]? = some s) (hk : queues_by_kind w s = true)
    (hs2 : (random_chase_lev.awakened self ctx w).schedulers_[self]? = some s2) :
    queues_by_kind (random_chase_lev.awakened self ctx w) s2 = true := by
  obtain ⟨hinst, hkind⟩ := awakened_instance self ctx w s hs
  rw [hinst] at hs2
  injection hs2 with hs2
  subst hs2
  simp only [queues_by_kind, Bool.and_eq_true, List.all_eq_true, hkind] at hk ⊢
  by_cases hp : (w.contexts ctx).pinned = true
  · simp only [hp, if_true, List.mem_append, List.mem_singleton]
    refine ⟨?_, hk.2⟩
    rintro c (hc | hc)
    · exact hk.1 c hc
    · rw [hc]; exact hp
  · have hp2 : (w.contexts ctx).pinned = false := by simpa using hp
    simp only [hp2, Bool.false_eq_true, if_false, List.mem_append, List.mem_singleton]
    refine ⟨hk.1, ?_⟩
    rintro c (hc | hc)
    · exact hk.2 c hc
    · rw [hc]; simp [hp2]

/-- C13: `awakened( ctx)` links a pinned context at the back of `lqueue_` and changes
neither `rqueue_` nor any context, so the scheduler back-pointer stays; it detaches a
context that is not pinned and pushes it onto `rqueue_`, leaving `lqueue_` alone.  With
the queues sorted by kind, `ctx` is afterwards in exactly one of the two queues; and on
an instance whose queues were empty the next `pick_next()` returns `ctx`. -/
theorem awakened_routing (self ctx active : Nat) (draws : List Nat) (w : algo_state)
    (s : random_chase_lev) (hs : w.schedulers_[self]? = some s) :
    ((w.contexts ctx).pinned = true →
      (random_chase_lev.awakened self ctx w).schedulers_[self]? =
          some { s with lqueue_ := s.lqueue_ ++ [ctx] }
      ∧ (random_chase_lev.awakened self ctx w).contexts = w.contexts)
    ∧ ((w.contexts ctx).pinned = false →
      (random_chase_lev.awakened self ctx w).schedulers_[self]? =
          some { s with rqueue_ := s.rqueue_ ++ [ctx] }
      ∧ ((random_chase_lev.awakened self ctx w).contexts ctx).scheduler_ = none)
    ∧ (queues_by_kind w s = true →
      ∀ s2 : random_chase_lev,
        (random_chase_lev.awakened self ctx w).schedulers_[self]? = some s2 →
          (ctx ∈ s2.lqueue_ ∧ ctx ∉ s2.rqueue_) ∨ (ctx ∉ s2.lqueue_ ∧ ctx ∈ s2.rqueue_))
    ∧ (s.rqueue_ = [] → s.lqueue_ = [] →
      (random_chase_lev.pick_next self active draws
        (random_chase_lev.awakened self ctx w)).map Prod.fst = some (some ctx)) := by
  obtain ⟨hinst, _⟩ := awakened_instance self ctx w s hs
  refine ⟨fun hp => ?_, fun hp => ?_, fun hk s2 hs2 => ?_, fun hq hl => ?_⟩
  · refine ⟨?_, ?_⟩
    · rw [hinst]; simp [hp]
    · rw [awakened_pinned self ctx w s hs hp]; rfl
  · refine ⟨?_, ?_⟩
    · rw [hinst]; simp [hp]
    · rw [awakened_worker self ctx w s hs hp]
      simp [put_scheduler, random_chase_lev.detach, update_context]
  · rw [hinst] at hs2
    injection hs2 with hs2
    subst hs2
    simp only [queues_by_kind, Bool.and_eq_true, List.all_eq_true] at hk
    by_cases hp : (w.contexts ctx).pinned = true
    · left
      simp only [hp, if_true, List.mem_append, List.mem_singleton, or_true, true_and]
      intro hmem
      have := hk.2 ctx hmem
      simp [hp] at this
    · have hp2 : (w.contexts ctx).pinned = false := by simpa using hp
      right
      simp only [hp2, Bool.false_eq_true, if_false, List.mem_append, List.mem_singleton,
        or_true, and_true]
      intro hmem
      have := hk.1 ctx hmem
      simp [hp2] at this
  · by_cases hp : (w.contexts ctx).pinned = true
    · have h1 : (random_chase_lev.awakened self ctx w).schedulers_[self]? =
          some { s with lqueue_ := s.lqueue_ ++ [ctx] } := by rw [hinst]; simp [hp]
      rw [pick_next_local self active draws _ _ ctx [] h1 hq (by simp [hl])]
      rfl
    · have hp2 : (w.contexts ctx).pinned = false := by simpa using hp
      have h1 : (random_chase_lev.awakened self ctx w).schedulers_[self]? =
          some { s with rqueue_ := s.rqueue_ ++ [ctx] } := by rw [hinst]; simp [hp2]
      rw [pick_next_pop self active draws _ _ [] ctx h1 (by simp [hq])]
      rfl

/-- C13, witness: on instance 0 of a fresh registry of two, the pinned context 3 goes
to `lqueue_`, the worker 4 to `rqueue_`, and `pick_next()` hands each back. -/
theorem awakened_routing_witness :
    (registry2.schedulers_[0]? = some { idx_ := 0, suspend_ := true }
      ∧ (registry2.contexts 3).pinned = true ∧ (registry2.contexts 4).pinned = false
      ∧ queues_by_kind registry2 { idx_ := 0, suspend_ := true } = true)
    ∧ (random_chase_lev.awakened 0 3 registry2).schedulers_[0]? =
        some { idx_ := 0, suspend_ := true, lqueue_ := [] ++ [3] }
    ∧ (random_chase_lev.awakened 0 4 registry2).schedulers_[0]? =
        some { idx_ := 0, suspend_ := true, rqueue_ := [] ++ [4] }
    ∧ ((3 ∈ ({ idx_ := 0, suspend_ := true, lqueue_ := [3] } : random_chase_lev).lqueue_
          ∧ 3 ∉ ({ idx_ := 0, suspend_ := true, lqueue_ := [3] } : random_chase_lev).rqueue_)
        ∨ (3 ∉ ({ idx_ := 0, suspend_ := true, lqueue_ := [3] } : random_chase_lev).lqueue_
          ∧ 3 ∈ ({ idx_ := 0, suspend_ := true, lqueue_ := [3] } : random_chase_lev).rqueue_))
    ∧ (random_chase_lev.pick_next 0 1 [] (random_chase_lev.awakened 0 4 registry2)).map
        Prod.fst = some (some 4) :=
  ⟨⟨rfl, rfl, rfl, rfl⟩,
    ((awakened_routing 0 3 1 [] registry2 { idx_ := 0, suspend_ := true } rfl).1 rfl).1,
    ((awakened_routing 0 4 1 [] registry2 { idx_ := 0, suspend_ := true } rfl).2.1 rfl).1,
    (awakened_routing 0 3 1 [] registry2 { idx_ := 0, suspend_ := true } rfl).2.2.1 rfl
      { idx_ := 0, suspend_ := true, lqueue_ := [3] } rfl,
    (awakened_routing 0 4 1 [] registry2 { idx_ := 0, suspend_ := true } rfl).2.2.2 rfl rfl⟩

end Fiber
